import Mathlib

/-!
Verification of the cookie-checker pipeline: a shallow embedding of the
cookie normalizers (`parse_cookies` in bot.py / working.py and
`parse_cookie_file` / `json_to_netscape_cookie` in withoutretry1.py),
the probe-response state extractor, the verdict resolver, and the
per-file delivery logic, together with theorems settling the frozen
claims about them.

Python strings are modelled as Lean `String` / `List Char`; the Python
string operations used by the source (`strip`, `lstrip`, `split`,
`splitlines`, `startswith`, `lower`, `capitalize`, membership) are
re-implemented below with Python's semantics.  External library calls
(`json.loads`, `unicode_escape` decoding, `int(float(...))`,
`datetime` formatting) are passed in as explicit parameters so that
theorems quantify over their outcomes.
-/

namespace CookieChecker

/-! ### Python string primitives -/

/-- Python's default whitespace set for `str.strip` (ASCII part). -/
def isPyWs (c : Char) : Bool :=
  c.toNat = 32 || c.toNat = 9 || c.toNat = 10 || c.toNat = 13 ||
  c.toNat = 11 || c.toNat = 12

/-- Characters on which Python's `str.splitlines` breaks lines. -/
def isLineBreak (c : Char) : Bool :=
  c.toNat = 10 || c.toNat = 13 || c.toNat = 11 || c.toNat = 12 ||
  c.toNat = 28 || c.toNat = 29 || c.toNat = 30 || c.toNat = 133 ||
  c.toNat = 8232 || c.toNat = 8233

/-- Drop leading whitespace characters. -/
def dropWs : List Char → List Char
  | [] => []
  | c :: rest => if isPyWs c then dropWs rest else c :: rest

/-- Python `str.strip()` on a character list. -/
def stripList (l : List Char) : List Char :=
  ((dropWs ((dropWs l).reverse)).reverse)

/-- Python `str.strip()`. -/
def pyStrip (s : String) : String := String.mk (stripList s.data)

/-- Python `str.lstrip()`. -/
def pyLStrip (s : String) : String := String.mk (dropWs s.data)

/-- Does `l` start with `pat`? -/
def startsWithL : List Char → List Char → Bool
  | _, [] => true
  | [], _ :: _ => false
  | c :: rest, p :: ps => c == p && startsWithL rest ps

/-- Python `str.startswith`. -/
def pyStartsWith (s pat : String) : Bool := startsWithL s.data pat.data

/-- Substring test, Python's `in` on strings. -/
def containsSub : List Char → List Char → Bool
  | [], pat => startsWithL [] pat
  | s@(_ :: rest), pat => startsWithL s pat || containsSub rest pat

/-- Python `pat in s`. -/
def pyContains (s pat : String) : Bool := containsSub s.data pat.data

/-- Python `str.split(sep)` for a one-character separator:
`""` splits to `[""]`, and every separator occurrence produces a field. -/
def splitOnChar (sep : Char) : List Char → List (List Char)
  | [] => [[]]
  | c :: rest =>
    match splitOnChar sep rest with
    | [] => [[]]
    | h :: t => if c == sep then [] :: h :: t else (c :: h) :: t

/-- Python `str.split(sep, 1)`: split at the first occurrence of `sep`,
returning `none` when `sep` is absent. -/
def firstSplit (sep : Char) : List Char → Option (List Char × List Char)
  | [] => none
  | c :: rest =>
    if c == sep then some ([], rest)
    else
      match firstSplit sep rest with
      | some (a, b) => some (c :: a, b)
      | none => none

/-- Python `str.splitlines`: worker with the current line accumulated in
reverse.  `\r\n` counts as a single break; a trailing break produces no
trailing empty line. -/
def splitLinesAux (cur : List Char) : List Char → List (List Char)
  | [] => if cur.isEmpty then [] else [cur.reverse]
  | '\r' :: '\n' :: rest => cur.reverse :: splitLinesAux [] rest
  | c :: rest =>
    if isLineBreak c then cur.reverse :: splitLinesAux [] rest
    else splitLinesAux (c :: cur) rest

/-- Python `str.splitlines()`. -/
def pySplitLines (s : String) : List String :=
  (splitLinesAux [] s.data).map String.mk

/-- Python `str.lower()` (ASCII). -/
def pyLower (s : String) : String := String.mk (s.data.map Char.toLower)

/-- Python `str.upper()` (ASCII). -/
def pyUpper (s : String) : String := String.mk (s.data.map Char.toUpper)

/-- Python `str.capitalize()`: first character uppercased, the rest
lowercased. -/
def pyCapitalize (s : String) : String :=
  match s.data with
  | [] => ""
  | c :: rest => String.mk (c.toUpper :: rest.map Char.toLower)

/-- Drop the first `n` characters of a string (Python slicing `s[n:]`). -/
def pyDropChars (n : Nat) (s : String) : String := String.mk (s.data.drop n)

/-- Python `"\n".join(lines)`. -/
def pyJoinNL : List String → String
  | [] => ""
  | [l] => l
  | l :: ls => l ++ "\n" ++ pyJoinNL ls

/-- The character for one decimal digit. -/
def digitChar (n : Nat) : Char :=
  if n = 0 then '0' else if n = 1 then '1' else if n = 2 then '2'
  else if n = 3 then '3' else if n = 4 then '4' else if n = 5 then '5'
  else if n = 6 then '6' else if n = 7 then '7' else if n = 8 then '8'
  else '9'

/-- Python's `str(int)` digit rendering, via fuel-bounded division. -/
def natDigitsAux : Nat → Nat → List Char
  | 0, _ => []
  | fuel + 1, n =>
    if n < 10 then [digitChar n]
    else natDigitsAux fuel (n / 10) ++ [digitChar (n % 10)]

/-- Decimal rendering of a natural number. -/
def natStr (n : Nat) : String := String.mk (natDigitsAux (n + 1) n)

/-- Python `str` of an `int`. -/
def intStr : Int → String
  | Int.ofNat n => natStr n
  | Int.negSucc n => "-" ++ natStr (n + 1)

/-- Numeric value of a list of decimal digit characters. -/
def natOfDigits (ds : List Char) : Nat :=
  ds.foldl (fun n c => n * 10 + (c.toNat - 48)) 0

/-- A simple decimal parser usable as a concrete instance of Python's
`int(float(expiry))` on plain non-negative integer literals. -/
def decimalNum (s : String) : Option Int :=
  if s.data ≠ [] && s.data.all Char.isDigit then
    some (Int.ofNat (natOfDigits s.data))
  else none

/-! ### Data model -/

/-- Python-dict insertion on an association list: an existing key keeps
its position and gets the new value, a fresh key is appended. -/
def dictInsert : List (String × String) → String → String → List (String × String)
  | [], k, v => [(k, v)]
  | (k', v') :: rest, k, v =>
    if k' == k then (k', v) :: rest else (k', v') :: dictInsert rest k v

/-- One object of a JSON-array cookie file, restricted to the fields the
source reads (`name`, `value`, `domain`, `path`, `expirationDate`,
`secure`); absent fields are `none`. -/
structure JsonCookie where
  name : Option String := none
  value : Option String := none
  domain : Option String := none
  path : Option String := none
  expirationDate : Option Int := none
  secure : Option Bool := none
deriving DecidableEq

/-- Outcome of `json.loads` on the input blob restricted to the
executions on which `parse_cookies` returns normally: the caught
`json.JSONDecodeError`, a successfully decoded non-list value, or a
decoded list of objects.  The full outcome space — including the
decoder raising an exception other than `JSONDecodeError` (uncaught)
and decoded lists with non-object elements on which the comprehension
raises `TypeError` — is `JsonLoads` below; `parse_cookies_full` extends
`parse_cookies` to it and `parse_cookies_full_agrees` proves the two
agree off the raising outcomes. -/
inductive JsonOutcome
  | err
  | notList
  | list (cs : List JsonCookie)
deriving DecidableEq

/-! ### Cookie normalizer `parse_cookies` (bot.py lines 43-70, identical
in working.py lines 74-101) -/

/-- One record of the JSON-array comprehension: insert `name → value`
when both fields are present, else skip. -/
def jsonFoldStep (d : List (String × String)) (c : JsonCookie) :
    List (String × String) :=
  match c.name, c.value with
  | some n, some v => dictInsert d n v
  | _, _ => d

/-- The JSON-array step (bot.py line 49): the dict comprehension
`{c['name']: c['value'] for c in arr if 'name' in c and 'value' in c}`. -/
def jsonStepCookies (cs : List JsonCookie) : List (String × String) :=
  cs.foldl jsonFoldStep []

/-- The record part of one tab-separated line, after comment handling:
`parts = line.split('\t'); if len(parts) >= 7: cookies[parts[5]] = parts[6]`. -/
def netscapeRecord (d : List (String × String)) (l : String) : List (String × String) :=
  let parts := (splitOnChar '\t' l.data).map String.mk
  if 7 ≤ parts.length then dictInsert d (parts.getD 5 "") (parts.getD 6 "") else d

/-- One iteration of the tab-separated loop of `parse_cookies`
(bot.py lines 54-62): strip the line, skip blanks and comments other
than `#HttpOnly_`, strip that marker, then parse the record. -/
def netscapeStep (d : List (String × String)) (line : String) : List (String × String) :=
  let l := pyStrip line
  if l == "" || (pyStartsWith l "#" && !pyStartsWith l "#HttpOnly_") then d
  else netscapeRecord d (if pyStartsWith l "#HttpOnly_" then pyDropChars 10 l else l)

/-- The tab-separated step of `parse_cookies` over the whole content. -/
def netscapeCookies (content : String) : List (String × String) :=
  (pySplitLines content).foldl netscapeStep []

/-- One iteration of the semicolon fallback of `parse_cookies`
(bot.py lines 65-68).  The source guards with `'=' in pair` and then
runs `pair.strip().split('=', 1)`; since `'='` is never whitespace the
guard is equivalent to the split on the stripped pair succeeding. -/
def fallbackStep (d : List (String × String)) (pairCs : List Char) : List (String × String) :=
  match firstSplit '=' (stripList pairCs) with
  | some (k, v) => dictInsert d (String.mk k) (String.mk v)
  | none => d

/-- The semicolon `key=value` fallback of `parse_cookies`. -/
def fallbackPairs (content : String) : List (String × String) :=
  (splitOnChar ';' content.data).foldl fallbackStep []

/-- `parse_cookies` after the JSON branch: the tab-separated scan, then
the semicolon fallback guarded by `if not cookies and file_content.strip()`. -/
def parseCookiesTail (content : String) : List (String × String) :=
  let cookies := netscapeCookies content
  if cookies.isEmpty && !(pyStrip content == "") then fallbackPairs content
  else cookies

/-- `parse_cookies(file_content, file_type)` (bot.py lines 43-70) over
the non-raising JSON outcomes.  The result of `json.loads(file_content)`
is supplied as `jo`; the JSON branch returns only when the decoded
value is a list, otherwise control falls through to the tab-separated
scan and the semicolon fallback.  The executions in which the JSON step
raises an uncaught exception are covered by `parse_cookies_full`, of
which this function is the provable restriction
(`parse_cookies_full_agrees`). -/
def parse_cookies (content ftype : String) (jo : JsonOutcome) : List (String × String) :=
  if pyLower ftype == "json" || pyStartsWith (pyLStrip content) "[" then
    match jo with
    | JsonOutcome.list cs => jsonStepCookies cs
    | _ => parseCookiesTail content
  else parseCookiesTail content

/-- Did the JSON branch of `parse_cookies` return (branch taken and the
decoded value is a list)?  When true, the tab and fallback steps are
never reached. -/
def jsonBranchReturns (content ftype : String) (jo : JsonOutcome) : Bool :=
  (pyLower ftype == "json" || pyStartsWith (pyLStrip content) "[") &&
    (match jo with
     | JsonOutcome.list _ => true
     | _ => false)

/-- One element of a decoded JSON list as the comprehension
`{c['name']: c['value'] for c in arr if 'name' in c and 'value' in c}`
sees it: a JSON object (missing `name`/`value` means skipped, not
fatal); a non-object on which Python's membership test is simply false
(e.g. a string not containing the key), skipped; or an element on which
`'name' in c` or the subsequent indexing raises `TypeError` (a number,
boolean or null, or a string containing the key), which kills the whole
call uncaught. -/
inductive JsonElem
  | obj (c : JsonCookie)
  | skip
  | bad
deriving DecidableEq

/-- The full outcome space of the `json.loads` call in `parse_cookies`:
`decodeError` is the caught `json.JSONDecodeError` (control falls
through to the tab scan); `raised` is any other exception from the
decoder — e.g. `RecursionError` on deeply nested input — which the
`except json.JSONDecodeError` clause does not catch; `notList` a
decoded non-list (falls through); `list` a decoded list of elements. -/
inductive JsonLoads
  | decodeError
  | raised
  | notList
  | list (es : List JsonElem)
deriving DecidableEq

/-- One step of the comprehension over the decoded list: objects feed
`jsonFoldStep`, tolerated non-objects are skipped, and a `bad` element
raises, aborting the rest of the comprehension. -/
def jsonCompFold (acc : Except Unit (List (String × String))) (e : JsonElem) :
    Except Unit (List (String × String)) :=
  match acc with
  | Except.error u => Except.error u
  | Except.ok d =>
    match e with
    | JsonElem.obj c => Except.ok (jsonFoldStep d c)
    | JsonElem.skip => Except.ok d
    | JsonElem.bad => Except.error ()

/-- The dict comprehension over the full element space: the dict, or an
uncaught `TypeError`. -/
def jsonStepCookiesFull (es : List JsonElem) :
    Except Unit (List (String × String)) :=
  es.foldl jsonCompFold (Except.ok [])

/-- The object elements of a decoded list (the ones the comprehension
consumes when nothing raises). -/
def jsonObjs (es : List JsonElem) : List JsonCookie :=
  es.filterMap
    (fun e =>
      match e with
      | JsonElem.obj c => some c
      | _ => none)

/-- `parse_cookies` over the full outcome space of its JSON step:
`Except.error` is an uncaught exception escaping the function (the
decoder raising something other than `JSONDecodeError`, or the
comprehension raising `TypeError` on a non-object element); everything
else behaves as `parse_cookies`. -/
def parse_cookies_full (content ftype : String) (jl : JsonLoads) :
    Except Unit (List (String × String)) :=
  if pyLower ftype == "json" || pyStartsWith (pyLStrip content) "[" then
    match jl with
    | JsonLoads.raised => Except.error ()
    | JsonLoads.list es => jsonStepCookiesFull es
    | _ => Except.ok (parseCookiesTail content)
  else Except.ok (parseCookiesTail content)

/-- The three ways the opening of `process_file` can end: a non-empty
cookie set (the job continues), the format-error report to the
requester (the job terminates with that one delivery), or an uncaught
exception before the guard (the task dies with no delivery at all —
`parse_cookies` is called outside any `try` in both variants). -/
inductive NormalizeResult
  | cookies (cs : List (String × String))
  | formatError
  | crashed
deriving DecidableEq

/-- The `cookies = parse_cookies(...)`; `if not cookies: return ⟨format
error⟩` opening of both `process_file` variants (bot.py lines 171-173,
working.py lines 209-215) over the full outcome space. -/
def normalizeFull (content ftype : String) (jl : JsonLoads) : NormalizeResult :=
  match parse_cookies_full content ftype jl with
  | Except.error _ => NormalizeResult.crashed
  | Except.ok cs =>
    if cs.isEmpty then NormalizeResult.formatError else NormalizeResult.cookies cs

/-! ### Jar-building normalizer (withoutretry1.py lines 61-102) -/

/-- A cookie as constructed by `parse_cookie_file` (withoutretry1.py
lines 76-86): the fields of the `http.cookiejar.Cookie` that the
source fills from the tab-separated record. -/
structure JarCookie where
  domain : String
  path : String
  secure : Bool
  expires : Int
  name : String
  value : String
deriving DecidableEq

/-- `CookieJar.set_cookie` keys cookies by `(domain, path, name)`:
a cookie with the same key is replaced in place, a new key is appended. -/
def jarInsert : List JarCookie → JarCookie → List JarCookie
  | [], c => [c]
  | c' :: rest, c =>
    if c'.domain == c.domain && c'.path == c.path && c'.name == c.name then
      c :: rest
    else c' :: jarInsert rest c

/-- One iteration of the `parse_cookie_file` loop (withoutretry1.py
lines 64-89).  `parseNum` models `int(float(expiry))`, returning `none`
for a `ValueError` (caught: the line is skipped).  A line with more
than 7 tab-separated fields makes the unpacking
`domain, flag, path, secure, expiry, name, value = parts` raise an
uncaught `ValueError`, modelled as `Except.error`. -/
def jarLineStep (now : Int) (parseNum : String → Option Int)
    (jar : List JarCookie) (line : String) : Except Unit (List JarCookie) :=
  let l := pyStrip line
  if l == "" || pyStartsWith l "#" then Except.ok jar
  else
    let parts := (splitOnChar '\t' l.data).map String.mk
    if parts.length < 7 then Except.ok jar
    else
      match parts with
      | [domain, _flag, path, secure, expiry, name, value] =>
        match parseNum expiry with
        | none => Except.ok jar
        | some e =>
          if e < now then Except.ok jar
          else Except.ok (jarInsert jar
            ⟨domain, path, pyUpper secure == "TRUE", e, name, value⟩)
      | _ => Except.error ()

/-- The accumulator-passing form of `jarLineStep`: an error from an
earlier line (the uncaught unpacking `ValueError`) propagates. -/
def jarStep (now : Int) (parseNum : String → Option Int)
    (acc : Except Unit (List JarCookie)) (line : String) :
    Except Unit (List JarCookie) :=
  match acc with
  | Except.error e => Except.error e
  | Except.ok jar => jarLineStep now parseNum jar line

/-- `parse_cookie_file(file_content)` (withoutretry1.py lines 61-90).
`now` is the timestamp captured at parse start; the final
`jar if jar else None` maps an empty jar to `none`. -/
def parse_cookie_file (now : Int) (parseNum : String → Option Int)
    (content : String) : Except Unit (Option (List JarCookie)) :=
  ((pySplitLines content).foldl (jarStep now parseNum) (Except.ok [])).map
    (fun jar => if jar.isEmpty then none else some jar)

/-- `json_to_netscape_cookie(js)` (withoutretry1.py lines 92-102). -/
def json_to_netscape_cookie (js : JsonCookie) : Option String :=
  let domain := js.domain.getD ""
  let flag := if pyStartsWith domain "." then "TRUE" else "FALSE"
  let path := js.path.getD "/"
  let secure := if js.secure.getD false then "TRUE" else "FALSE"
  let expiry := js.expirationDate.getD 0
  let name := js.name.getD ""
  let value := js.value.getD ""
  if name == "" || value == "" then none
  else some (domain ++ "\t" ++ flag ++ "\t" ++ path ++ "\t" ++ secure ++ "\t"
    ++ intStr expiry ++ "\t" ++ name ++ "\t" ++ value)

/-- The tab-separated text produced from a JSON array record by mapping
`json_to_netscape_cookie` over it and joining with newlines. -/
def netscapeText (arr : List JsonCookie) : String :=
  pyJoinNL (arr.filterMap json_to_netscape_cookie)

/-- The semicolon fallback map of `process_one_file` (withoutretry1.py
lines 228-232): `k, v = pair.split("=", 1)` on the raw fragment, then
`cookies_map[k.strip()] = v.strip()`. -/
def fallbackMap (text : String) : List (String × String) :=
  (splitOnChar ';' text.data).foldl
    (fun d pairCs =>
      match firstSplit '=' pairCs with
      | some (k, v) => dictInsert d (pyStrip (String.mk k)) (pyStrip (String.mk v))
      | none => d)
    []

/-- The Netscape text the fallback builds (withoutretry1.py lines
234-236): a header comment plus one `.openai.com`-scoped, expiry-0 line
per extracted pair. -/
def fallbackText (text : String) : String :=
  pyJoinNL ("# Netscape HTTP Cookie File" ::
    (fallbackMap text).map
      (fun p => ".openai.com\tTRUE\t/\tFALSE\t0\t" ++ p.1 ++ "\t" ++ p.2))

/-- The jar the semicolon fallback of `process_one_file` builds
(withoutretry1.py lines 227-237): `None` when no pair was extracted,
else `parse_cookie_file` on the generated text. -/
def fallbackJar (now : Int) (parseNum : String → Option Int)
    (text : String) : Except Unit (Option (List JarCookie)) :=
  if (fallbackMap text).isEmpty then Except.ok none
  else parse_cookie_file now parseNum (fallbackText text)

/-! ### Probe state extractor (bot.py lines 186-201, working.py lines
243-254) -/

/-- The literal before the captured group in the extraction pattern
`streamController\.enqueue\("(.+?)"\)`. -/
def enqueueNeedle : List Char := "streamController.enqueue(\"".data

/-- The two-character literal `"` `)` that must follow the capture. -/
def enqueueClose : List Char := "\")".data

/-- Find the shortest non-empty capture `(.+?)` followed by `")` —
the lazy group of the extraction regex at a fixed position. -/
def findCaptureAux (acc : List Char) : List Char → Option (List Char)
  | [] => none
  | c :: rest =>
    if startsWithL rest enqueueClose then some (c :: acc).reverse
    else findCaptureAux (c :: acc) rest

/-- `re.search(r'streamController\.enqueue\("(.+?)"\)', html, re.DOTALL)`:
scan left to right for the first position where the whole pattern
matches and return the captured group. -/
def searchEnqueue : List Char → Option (List Char)
  | [] => none
  | s@(_ :: rest) =>
    if startsWithL s enqueueNeedle then
      match findCaptureAux [] (s.drop enqueueNeedle.length) with
      | some cap => some cap
      | none => searchEnqueue rest
    else searchEnqueue rest

/-- `js_escaped.encode('utf-8').decode('unicode_escape')` with fallback
to the raw text on failure: `unescape` models the library decoder,
`none` meaning it raised. -/
def pyUnescape (unescape : String → Option String) (esc : String) : String :=
  (unescape esc).getD esc

/-- `js_payload.replace('\\"', '"')` (working.py line 250), specialised
to that two-character pattern: each `\"` becomes `"`, leftmost first,
non-overlapping. -/
def unescQuotes : List Char → List Char
  | '\\' :: '"' :: rest => '"' :: unescQuotes rest
  | c :: rest => c :: unescQuotes rest
  | [] => []

/-- String wrapper for `unescQuotes`. -/
def unescQuotesStr (s : String) : String := String.mk (unescQuotes s.data)

/-- The `"authStatus","logged_in"` sentinel. -/
def loggedInLit : String := "\"authStatus\",\"logged_in\""

/-- The `"authStatus","logged_out"` sentinel. -/
def loggedOutLit : String := "\"authStatus\",\"logged_out\""

/-! ### Marker sub-pattern searches (working.py lines 279-300) -/

/-- Drop regex `\s*` whitespace. -/
def wsDrop (l : List Char) : List Char := l.dropWhile (fun c => isPyWs c)

/-- Match `"key"\s*,\s*` at the current position and return the rest. -/
def afterKeyComma (key : List Char) (s : List Char) : Option (List Char) :=
  if startsWithL s ('"' :: (key ++ ['"'])) then
    match wsDrop (s.drop (key.length + 2)) with
    | ',' :: r => some (wsDrop r)
    | _ => none
  else none

/-- Match the tail `"([^"]+)"`: a non-empty greedy run of non-quote
characters terminated by a quote. -/
def quotedCapture : List Char → Option String
  | '"' :: rest =>
    let cap := rest.takeWhile (fun c => c ≠ '"')
    match rest.dropWhile (fun c => c ≠ '"') with
    | '"' :: _ => if cap.isEmpty then none else some (String.mk cap)
    | _ => none
  | _ => none

/-- Match the tail `(\d+)`: a non-empty greedy digit run. -/
def digitsCapture (l : List Char) : Option Nat :=
  let ds := l.takeWhile Char.isDigit
  if ds.isEmpty then none else some (natOfDigits ds)

/-- Match the tail `(true|false)`. -/
def boolCapture (l : List Char) : Option Bool :=
  if startsWithL l "true".data then some true
  else if startsWithL l "false".data then some false
  else none

/-- `re.search`: try the position matcher at each start position, left
to right. -/
def searchAux (f : List Char → Option α) : List Char → Option α
  | [] => f []
  | s@(_ :: rest) =>
    match f s with
    | some v => some v
    | none => searchAux f rest

/-- `re.search(r'"<key>"\s*,\s*"([^"]+)"', s)`. -/
def searchQuoted (key : String) (s : String) : Option String :=
  searchAux (fun l => (afterKeyComma key.data l).bind quotedCapture) s.data

/-- `re.search(r'"<key>"\s*,\s*(\d+)', s)`. -/
def searchNumMarker (key : String) (s : String) : Option Nat :=
  searchAux (fun l => (afterKeyComma key.data l).bind digitsCapture) s.data

/-- `re.search(r'"<key>"\s*,\s*(true|false)', s)`. -/
def searchBoolMarker (key : String) (s : String) : Option Bool :=
  searchAux (fun l => (afterKeyComma key.data l).bind boolCapture) s.data

/-- Position matcher for `subscriptionExpiresAt\\?",\s*(\d+)` — the
fallback expiry pattern applied to the raw html (working.py line 291). -/
def expiryHtmlAt (l : List Char) : Option Nat :=
  if startsWithL l "subscriptionExpiresAt".data then
    match l.drop 21 with
    | '\\' :: '"' :: ',' :: r => digitsCapture (wsDrop r)
    | '"' :: ',' :: r => digitsCapture (wsDrop r)
    | _ => none
  else none

/-- `re.search(r'subscriptionExpiresAt\\?",\s*(\d+)', html)`. -/
def searchExpiryHtml (s : String) : Option Nat := searchAux expiryHtmlAt s.data

/-! ### Verdict resolver -/

/-- The verdict: `Invalid`, or `Valid` with the four rendered account
attributes (mail, plan, expiry, MFA) as the caption shows them. -/
inductive Verdict
  | invalid
  | valid (email plan expires mfa : String)
deriving DecidableEq

/-- bot.py lines 194-199: `logged_in` ⇒ valid, `logged_out` ⇒ invalid,
anything else ⇒ invalid; the `logged_in` test runs first. -/
def resolveAuth (payload : String) : Bool :=
  if pyContains payload loggedInLit then true
  else if pyContains payload loggedOutLit then false
  else false

/-- working.py lines 279-284: email marker, falling back to the name
marker and then `"N/A"`; an email match without `'@'` is rejected. -/
def extractEmail (payload : String) : String :=
  let nameFallback := (searchQuoted "name" payload).getD "N/A"
  match searchQuoted "email" payload with
  | some e => if pyContains e "@" then e else nameFallback
  | none => nameFallback

/-- working.py lines 286-288: `planType` marker, else `subscriptionPlan`
marker, capitalized, else `"N/A"`. -/
def extractPlan (payload : String) : String :=
  match searchQuoted "planType" payload with
  | some s => pyCapitalize s
  | none =>
    match searchQuoted "subscriptionPlan" payload with
    | some s => pyCapitalize s
    | none => "N/A"

/-- working.py lines 290-297: expiry epoch from the payload, else from
the raw html, formatted by `fmt` (the `datetime` call), else `"N/A"`. -/
def extractExpires (fmt : Nat → String) (payload html : String) : String :=
  match searchNumMarker "subscriptionExpiresAt" payload with
  | some ts => fmt ts
  | none =>
    match searchExpiryHtml html with
    | some ts => fmt ts
    | none => "N/A"

/-- working.py lines 299-300: `mfa` boolean marker, title-cased, else
`"N/A"`. -/
def extractMfa (payload : String) : String :=
  match searchBoolMarker "mfa" payload with
  | some true => "True"
  | some false => "False"
  | none => "N/A"

/-- working.py lines 251 and 269-300 as a resolver from the decoded
payload (and raw html, consulted by the expiry fallback pattern) to a
verdict with rendered attributes. -/
def workingResolve (fmt : Nat → String) (payload html : String) : Verdict :=
  if pyContains payload loggedInLit then
    Verdict.valid (extractEmail payload) (extractPlan payload)
      (extractExpires fmt payload html) (extractMfa payload)
  else Verdict.invalid

/-- The flat signal set extracted from one probe response: the
authentication flag plus the optional markers.  When the enqueue
literal is absent no marker is extracted. -/
structure SignalSet where
  authLoggedIn : Bool := false
  email : Option String := none
  displayName : Option String := none
  plan : Option String := none
  expiresAt : Option Nat := none
  mfa : Option Bool := none
deriving DecidableEq

/-- The all-absent signal set. -/
def emptySignalSet : SignalSet := {}

/-- The signal set read from a decoded payload (and the raw html for
the expiry fallback pattern). -/
def signalsOfPayload (payload html : String) : SignalSet where
  authLoggedIn := pyContains payload loggedInLit
  email := searchQuoted "email" payload
  displayName := searchQuoted "name" payload
  plan := (searchQuoted "planType" payload).orElse
    (fun _ => searchQuoted "subscriptionPlan" payload)
  expiresAt := (searchNumMarker "subscriptionExpiresAt" payload).orElse
    (fun _ => searchExpiryHtml html)
  mfa := searchBoolMarker "mfa" payload

/-- The decoded payload of working.py lines 245-250: `unicode_escape`
with raw fallback, then the `\"` → `"` replacement. -/
def workingPayloadOf (unescape : String → Option String) (cap : String) : String :=
  unescQuotesStr (pyUnescape unescape cap)

/-- Signal extraction for one response body: empty when the enqueue
literal yields no match. -/
def extractSignalSet (unescape : String → Option String) (html : String) : SignalSet :=
  match searchEnqueue html.data with
  | none => emptySignalSet
  | some cap => signalsOfPayload (workingPayloadOf unescape (String.mk cap)) html

/-- bot.py lines 185-201: the validity flag computed from one response
body (no `\"` replacement in this variant). -/
def botProbe (unescape : String → Option String) (html : String) : Bool :=
  match searchEnqueue html.data with
  | none => false
  | some cap => resolveAuth (pyUnescape unescape (String.mk cap))

/-- working.py lines 243-254 and 269-300: verdict from one response
body. -/
def workingProbe (unescape : String → Option String) (fmt : Nat → String)
    (html : String) : Verdict :=
  match searchEnqueue html.data with
  | none => Verdict.invalid
  | some cap => workingResolve fmt (workingPayloadOf unescape (String.mk cap)) html

/-! ### Per-file processing and deliveries -/

/-- Outcome of the probe HTTP round trip: a response body, or a raised
transport/DNS/timeout exception. -/
inductive ProbeOutcome
  | ok (html : String)
  | exn
deriving DecidableEq

/-- Recipient class of one delivery. -/
inductive Recipient
  | requester
  | operator
deriving DecidableEq

/-- Kind of one delivery the job emits. -/
inductive MsgKind
  | formatError
  | invalidVerdict
  | errorReport
  | validResult
  | operatorCopy
deriving DecidableEq

/-- One delivery: who receives it and what kind of message it is. -/
structure Delivery where
  recipient : Recipient
  kind : MsgKind
deriving DecidableEq

/-- bot.py `process_file` (lines 159-236) as the sequence of deliveries
it emits: format error on an empty cookie set; on an exception the
flag is false and the requester gets the invalid-verdict message; on a
valid flag the requester and the owner each get a document. -/
def botProcessFile (unescape : String → Option String)
    (cookies : List (String × String)) (o : ProbeOutcome) : List Delivery :=
  if cookies.isEmpty then [⟨Recipient.requester, MsgKind.formatError⟩]
  else
    let valid :=
      match o with
      | ProbeOutcome.exn => false
      | ProbeOutcome.ok html => botProbe unescape html
    if valid then
      [⟨Recipient.requester, MsgKind.validResult⟩,
       ⟨Recipient.operator, MsgKind.operatorCopy⟩]
    else [⟨Recipient.requester, MsgKind.invalidVerdict⟩]

/-- working.py `process_file` (lines 197-338) as the sequence of
deliveries it emits: format error on an empty cookie set; on an
exception the requester gets the error-with-traceback message and the
job returns; otherwise an invalid verdict message, or the two result
documents. -/
def workingProcessFile (unescape : String → Option String) (fmt : Nat → String)
    (cookies : List (String × String)) (o : ProbeOutcome) : List Delivery :=
  if cookies.isEmpty then [⟨Recipient.requester, MsgKind.formatError⟩]
  else
    match o with
    | ProbeOutcome.exn => [⟨Recipient.requester, MsgKind.errorReport⟩]
    | ProbeOutcome.ok html =>
      match workingProbe unescape fmt html with
      | Verdict.invalid => [⟨Recipient.requester, MsgKind.invalidVerdict⟩]
      | Verdict.valid _ _ _ _ =>
        [⟨Recipient.requester, MsgKind.validResult⟩,
         ⟨Recipient.operator, MsgKind.operatorCopy⟩]

/-! ### Inputs and side conditions used by the claim theorems -/

/-- The blob for the C8 counterexample: a JSON array whose only object
lacks a `value` field but whose text contains a `key=value` fragment. -/
def c8content : String := "[\x7b\"name\":\"x\",\"foo\":\"a=b\"\x7d]"

/-- The decoded-JSON outcome of `c8content`: a one-object list bearing
only a `name`. -/
def c8json : JsonOutcome :=
  JsonOutcome.list [⟨some "x", none, none, none, none, none⟩]

/-- A future-dated `#HttpOnly_` line for the C9 counterexample. -/
def c9HttpOnlyLine : String :=
  "#HttpOnly_.openai.com\tTRUE\t/\tFALSE\t9999999999\tsess\ttok"

/-- The C10 counterexample blob: its single `key=value` pair smuggles a
newline and a full 7-field future-dated record into the cookie value,
so the expiry-0 line the fallback generates physically splits into two
lines, the second of which is kept. -/
def c10text : String := "a=x\n.openai.com\tTRUE\t/\tFALSE\t99999999999\tb\tc"

/-- A printable non-whitespace ASCII character: the character class the
round-trip and jar-emptiness theorems require of cookie fields so a
generated line survives `strip`/`split('\t')`/`splitlines` intact. -/
def cleanChar (c : Char) : Bool := 33 ≤ c.toNat && c.toNat ≤ 126

/-- A non-empty string of printable non-whitespace ASCII characters. -/
def cleanStr (s : String) : Bool := !(s == "") && s.data.all cleanChar

/-- The per-record side condition of the amended round-trip claim: when
a record bears both `name` and `value`, those, its domain and its path
are non-empty printable non-whitespace ASCII, and the domain does not
begin with `#` (a domain beginning with `#` would turn the generated
line into a comment). -/
def RecClean (r : JsonCookie) : Prop :=
  r.name.isSome = true → r.value.isSome = true →
    cleanStr (r.name.getD "") = true ∧ cleanStr (r.value.getD "") = true ∧
    cleanStr (r.domain.getD "") = true ∧ cleanStr (r.path.getD "/") = true ∧
    pyStartsWith (r.domain.getD "") "#" = false

instance recCleanDecidable (r : JsonCookie) : Decidable (RecClean r) := by
  unfold RecClean
  infer_instance

/-! ### Helper lemmas -/

/-- When the JSON-branch guard is false, `parse_cookies` is the tab scan
plus fallback. -/
theorem parse_cookies_guard_false (content ftype : String) (jo : JsonOutcome)
    (h : (pyLower ftype == "json" || pyStartsWith (pyLStrip content) "[") = false) :
    parse_cookies content ftype jo = parseCookiesTail content := by
  unfold parse_cookies
  rw [h]
  rfl

/-- When the JSON branch returns a list, `parse_cookies` is the
comprehension over it. -/
theorem parse_cookies_json_list (content ftype : String) (cs : List JsonCookie)
    (h : (pyLower ftype == "json" || pyStartsWith (pyLStrip content) "[") = true) :
    parse_cookies content ftype (JsonOutcome.list cs) = jsonStepCookies cs := by
  unfold parse_cookies
  rw [h]
  rfl

end CookieChecker

namespace CookieChecker

/-- When no element raises, the full comprehension is the object-only
comprehension. -/
theorem foldl_jsonCompFold_ok :
    ∀ es : List JsonElem, JsonElem.bad ∉ es →
      ∀ d, es.foldl jsonCompFold (Except.ok d) =
        Except.ok ((jsonObjs es).foldl jsonFoldStep d) := by
  intro es
  induction es with
  | nil => intro _ d; rfl
  | cons e t ih =>
    intro h d
    have hbt : JsonElem.bad ∉ t := fun hx => h (List.mem_cons_of_mem _ hx)
    cases e with
    | obj c =>
      rw [List.foldl_cons,
        show jsonCompFold (Except.ok d) (JsonElem.obj c) =
          Except.ok (jsonFoldStep d c) from rfl,
        ih hbt (jsonFoldStep d c)]
      rfl
    | skip =>
      rw [List.foldl_cons,
        show jsonCompFold (Except.ok d) JsonElem.skip = Except.ok d from rfl,
        ih hbt d]
      rfl
    | bad => exact absurd (List.mem_cons_self _ _) h

/-- `parse_cookies` is the restriction of `parse_cookies_full` to the
non-raising JSON outcomes: they agree on a caught decode error, on a
decoded non-list, and on a decoded list without raising elements. -/
theorem parse_cookies_full_agrees (content ftype : String) :
    parse_cookies_full content ftype JsonLoads.decodeError =
      Except.ok (parse_cookies content ftype JsonOutcome.err) ∧
    parse_cookies_full content ftype JsonLoads.notList =
      Except.ok (parse_cookies content ftype JsonOutcome.notList) ∧
    ∀ es : List JsonElem, JsonElem.bad ∉ es →
      parse_cookies_full content ftype (JsonLoads.list es) =
        Except.ok (parse_cookies content ftype (JsonOutcome.list (jsonObjs es))) := by
  refine ⟨?_, ?_, ?_⟩
  · unfold parse_cookies_full parse_cookies
    cases h : (pyLower ftype == "json" || pyStartsWith (pyLStrip content) "[") <;> rfl
  · unfold parse_cookies_full parse_cookies
    cases h : (pyLower ftype == "json" || pyStartsWith (pyLStrip content) "[") <;> rfl
  · intro es hes
    unfold parse_cookies_full parse_cookies
    cases h : (pyLower ftype == "json" || pyStartsWith (pyLStrip content) "[") with
    | false => rfl
    | true => exact foldl_jsonCompFold_ok es hes []

/-- A fold whose step fixes every accumulator on the given elements is
the identity. -/
theorem foldl_fixed {α β : Type} (f : α → β → α) (l : List β)
    (h : ∀ x ∈ l, ∀ a, f a x = a) : ∀ a, l.foldl f a = a := by
  induction l with
  | nil => intro a; rfl
  | cons x t ih =>
    intro a
    rw [List.foldl_cons, h x (by simp)]
    exact ih (fun y hy => h y (by simp [hy])) a

/-- Printable non-whitespace characters are not stripped. -/
theorem cleanChar_not_ws {c : Char} (h : cleanChar c = true) :
    isPyWs c = false := by
  unfold cleanChar at h
  unfold isPyWs
  rw [Bool.and_eq_true, decide_eq_true_eq, decide_eq_true_eq] at h
  simp only [Bool.or_eq_false_iff, decide_eq_false_iff_not]
  omega

/-- Printable non-whitespace characters do not break lines. -/
theorem cleanChar_not_break {c : Char} (h : cleanChar c = true) :
    isLineBreak c = false := by
  unfold cleanChar at h
  unfold isLineBreak
  rw [Bool.and_eq_true, decide_eq_true_eq, decide_eq_true_eq] at h
  simp only [Bool.or_eq_false_iff, decide_eq_false_iff_not]
  omega

/-- Printable non-whitespace characters are not the tab separator. -/
theorem cleanChar_ne_tab {c : Char} (h : cleanChar c = true) :
    (c == '\t') = false := by
  unfold cleanChar at h
  rw [Bool.and_eq_true, decide_eq_true_eq, decide_eq_true_eq] at h
  rw [beq_eq_false_iff_ne]
  intro he
  subst he
  simp at h

/-- `dropWs` is the identity on a list whose head is not whitespace. -/
theorem dropWs_cons_not_ws {c : Char} {t : List Char}
    (h : isPyWs c = false) : dropWs (c :: t) = c :: t := by
  unfold dropWs
  rw [h]
  rfl

/-- `strip` is the identity when neither end of the list is whitespace. -/
theorem stripList_noop {l : List Char} {c c' : Char}
    (h1 : l.head? = some c) (hc : isPyWs c = false)
    (h2 : l.reverse.head? = some c') (hc' : isPyWs c' = false) :
    stripList l = l := by
  cases l with
  | nil => cases h1
  | cons a t =>
    have ha : a = c := by simpa using h1
    subst ha
    unfold stripList
    rw [dropWs_cons_not_ws hc]
    cases hr : (a :: t).reverse with
    | nil => simp at hr
    | cons b u =>
      have hb : b = c' := by rw [hr] at h2; simpa using h2
      subst hb
      rw [dropWs_cons_not_ws hc', ← hr, List.reverse_reverse]

/-- `splitOnChar` never yields the empty list of fragments. -/
theorem splitOnChar_ne_nil (sep : Char) (l : List Char) :
    splitOnChar sep l ≠ [] := by
  cases l with
  | nil => simp [splitOnChar]
  | cons c rest =>
    unfold splitOnChar
    cases splitOnChar sep rest with
    | nil => simp
    | cons h t =>
      by_cases hc : (c == sep) = true <;> simp [hc]

/-- Splitting a separator-free list yields a single fragment. -/
theorem splitOnChar_no_sep {sep : Char} {a : List Char}
    (h : ∀ c ∈ a, (c == sep) = false) : splitOnChar sep a = [a] := by
  induction a with
  | nil => rfl
  | cons c t ih =>
    have h1 : ∀ x ∈ t, (x == sep) = false := fun x hx => h x (by simp [hx])
    have h2 : (c == sep) = false := h c (by simp)
    rw [splitOnChar, ih h1]
    simp [h2]

/-- Splitting a list whose first field is separator-free peels off that
field. -/
theorem splitOnChar_append {sep : Char} {a : List Char} (rest : List Char)
    (h : ∀ c ∈ a, (c == sep) = false) :
    splitOnChar sep (a ++ sep :: rest) = a :: splitOnChar sep rest := by
  induction a with
  | nil =>
    rw [List.nil_append, splitOnChar]
    cases hs : splitOnChar sep rest with
    | nil => exact absurd hs (splitOnChar_ne_nil sep rest)
    | cons hh tt => simp
  | cons c t ih =>
    have h1 : ∀ x ∈ t, (x == sep) = false := fun x hx => h x (by simp [hx])
    have h2 : (c == sep) = false := h c (by simp)
    rw [List.cons_append, splitOnChar, ih h1]
    simp [h2]

/-- A non-breaking character is accumulated into the current line. -/
theorem slAux_cons_not_break {c : Char} {rest cur : List Char}
    (h : isLineBreak c = false) :
    splitLinesAux cur (c :: rest) = splitLinesAux (c :: cur) rest := by
  have hcr : c ≠ '\r' := by
    intro he
    subst he
    simp [isLineBreak] at h
  cases rest with
  | nil => simp [splitLinesAux, h]
  | cons d rest2 => simp [splitLinesAux, h, hcr]

/-- A break-free tail closes the current line. -/
theorem slAux_no_break {l : List Char} (h : ∀ c ∈ l, isLineBreak c = false) :
    ∀ cur, splitLinesAux cur l =
      if (cur.reverse ++ l).isEmpty then [] else [cur.reverse ++ l] := by
  induction l with
  | nil => intro cur; cases cur <;> simp [splitLinesAux]
  | cons c t ih =>
    intro cur
    rw [slAux_cons_not_break (h c (by simp)),
      ih (fun x hx => h x (by simp [hx])) (c :: cur)]
    simp [List.append_assoc]

/-- A break-free first line followed by `\n` is emitted whole. -/
theorem slAux_append {l : List Char} (h : ∀ c ∈ l, isLineBreak c = false) :
    ∀ cur rest, splitLinesAux cur (l ++ '\n' :: rest) =
      (cur.reverse ++ l) :: splitLinesAux [] rest := by
  induction l with
  | nil =>
    intro cur rest
    rw [List.nil_append, List.append_nil]
    rfl
  | cons c t ih =>
    intro cur rest
    rw [List.cons_append, slAux_cons_not_break (h c (by simp)),
      ih (fun x hx => h x (by simp [hx])) (c :: cur) rest]
    simp [List.append_assoc]

/-- Joining non-empty break-free lines with `\n` and splitting again is
the identity. -/
theorem pySplitLines_join {lines : List String}
    (h : ∀ l ∈ lines, l.data ≠ [] ∧ ∀ c ∈ l.data, isLineBreak c = false) :
    pySplitLines (pyJoinNL lines) = lines := by
  induction lines with
  | nil => rfl
  | cons l ls ih =>
    cases ls with
    | nil =>
      obtain ⟨hne, hnb⟩ := h l (by simp)
      unfold pySplitLines pyJoinNL
      rw [slAux_no_break hnb []]
      simp only [List.reverse_nil, List.nil_append]
      rw [if_neg (by simp [List.isEmpty_iff, hne])]
      rfl
    | cons l2 ls2 =>
      obtain ⟨hne, hnb⟩ := h l (by simp)
      unfold pySplitLines
      rw [show pyJoinNL (l :: l2 :: ls2) = l ++ "\n" ++ pyJoinNL (l2 :: ls2) from rfl,
        String.data_append, String.data_append,
        show ("\n").data = ['\n'] from rfl, List.append_assoc,
        show ['\n'] ++ (pyJoinNL (l2 :: ls2)).data =
          '\n' :: (pyJoinNL (l2 :: ls2)).data from rfl,
        slAux_append hnb [] _]
      simp only [List.reverse_nil, List.nil_append, List.map_cons]
      have ih2 := ih (fun x hx => h x (by simp [hx]))
      unfold pySplitLines at ih2
      rw [ih2]

/-- Digit characters are printable non-whitespace ASCII. -/
theorem digitChar_clean (n : Nat) : cleanChar (digitChar n) = true := by
  unfold digitChar
  repeat' split
  all_goals decide

/-- The digit rendering is non-empty for positive fuel. -/
theorem natDigitsAux_ne_nil (fuel n : Nat) : natDigitsAux (fuel + 1) n ≠ [] := by
  unfold natDigitsAux
  split <;> simp

/-- All characters of the digit rendering are digit characters. -/
theorem natDigitsAux_clean :
    ∀ fuel n, ∀ c ∈ natDigitsAux fuel n, cleanChar c = true := by
  intro fuel
  induction fuel with
  | zero => intro n c hc; cases hc
  | succ f ih =>
    intro n c hc
    unfold natDigitsAux at hc
    by_cases h10 : n < 10
    · rw [if_pos h10] at hc
      simp at hc
      subst hc
      exact digitChar_clean n
    · rw [if_neg h10] at hc
      rcases List.mem_append.1 hc with h1 | h2
      · exact ih _ c h1
      · simp at h2
        subst h2
        exact digitChar_clean _

/-- `str(int)` renders to a non-empty clean string. -/
theorem intStr_clean (i : Int) :
    (intStr i).data ≠ [] ∧ ∀ c ∈ (intStr i).data, cleanChar c = true := by
  cases i with
  | ofNat n =>
    exact ⟨natDigitsAux_ne_nil n n, fun c hc => natDigitsAux_clean (n + 1) n c hc⟩
  | negSucc n =>
    constructor
    · show (("-" : String) ++ natStr (n + 1)).data ≠ []
      rw [String.data_append]
      simp
    · intro c hc
      rw [show intStr (Int.negSucc n) = "-" ++ natStr (n + 1) from rfl,
        String.data_append] at hc
      rcases List.mem_append.1 hc with h1 | h2
      · simp at h1
        subst h1
        decide
      · exact natDigitsAux_clean (n + 2) (n + 1) c h2

/-- A non-empty string has a non-empty character list. -/
theorem data_ne_nil_of_ne_empty {s : String} (h : s ≠ "") : s.data ≠ [] := by
  intro hd
  exact h (by cases s; simp_all)

/-- Unpack the `cleanStr` conjunction. -/
theorem cleanStr_spec {s : String} (h : cleanStr s = true) :
    s.data ≠ [] ∧ ∀ c ∈ s.data, cleanChar c = true := by
  unfold cleanStr at h
  rw [Bool.and_eq_true, Bool.not_eq_true'] at h
  exact ⟨data_ne_nil_of_ne_empty (by simpa using h.1),
    by simpa [List.all_eq_true] using h.2⟩

/-- Membership after a keyed jar insert. -/
theorem jarInsert_mem {jar : List JarCookie} {cNew c : JarCookie}
    (h : c ∈ jarInsert jar cNew) : c = cNew ∨ c ∈ jar := by
  induction jar with
  | nil =>
    simp [jarInsert] at h
    exact Or.inl h
  | cons b rest ih =>
    unfold jarInsert at h
    split at h
    · rcases List.mem_cons.1 h with rfl | h2
      · exact Or.inl rfl
      · exact Or.inr (List.mem_cons_of_mem _ h2)
    · rcases List.mem_cons.1 h with rfl | h2
      · exact Or.inr (List.mem_cons_self _ _)
      · rcases ih h2 with h3 | h3
        · exact Or.inl h3
        · exact Or.inr (List.mem_cons_of_mem _ h3)

/-- One `parse_cookie_file` step keeps every kept cookie unexpired. -/
theorem jarStep_ok_inv {now : Int} {pn : String → Option Int}
    {jar jar' : List JarCookie} {line : String}
    (hstep : jarStep now pn (Except.ok jar) line = Except.ok jar')
    (hinv : ∀ c ∈ jar, now ≤ c.expires) : ∀ c ∈ jar', now ≤ c.expires := by
  rw [show jarStep now pn (Except.ok jar) line = jarLineStep now pn jar line
    from rfl] at hstep
  simp only [jarLineStep] at hstep
  split at hstep
  · injection hstep with h
    subst h
    exact hinv
  · split at hstep
    · injection hstep with h
      subst h
      exact hinv
    · split at hstep
      · split at hstep
        · injection hstep with h
          subst h
          exact hinv
        · split at hstep
          · injection hstep with h
            subst h
            exact hinv
          · injection hstep with h
            subst h
            intro c hc
            rcases jarInsert_mem hc with rfl | h2
            · simp only [not_lt] at *
              assumption
            · exact hinv c h2
      · cases hstep

/-- A fold of `jarStep` from an error stays an error. -/
theorem foldl_jarStep_error (now : Int) (pn : String → Option Int)
    (lines : List String) (e : Unit) :
    lines.foldl (jarStep now pn) (Except.error e) = Except.error e := by
  induction lines with
  | nil => rfl
  | cons l ls ih => rw [List.foldl_cons, show jarStep now pn (Except.error e) l =
      Except.error e from rfl, ih]

/-- The fold of `jarStep` preserves the unexpired invariant. -/
theorem foldl_jarStep_inv (now : Int) (pn : String → Option Int) :
    ∀ (lines : List String) (jar jar' : List JarCookie),
      (∀ c ∈ jar, now ≤ c.expires) →
      lines.foldl (jarStep now pn) (Except.ok jar) = Except.ok jar' →
      ∀ c ∈ jar', now ≤ c.expires := by
  intro lines
  induction lines with
  | nil =>
    intro jar jar' hinv heq
    injection heq with h
    subst h
    exact hinv
  | cons l ls ih =>
    intro jar jar' hinv heq
    rw [List.foldl_cons] at heq
    cases hacc : jarStep now pn (Except.ok jar) l with
    | error e =>
      rw [hacc, foldl_jarStep_error] at heq
      cases heq
    | ok j2 =>
      rw [hacc] at heq
      exact ih j2 jar' (jarStep_ok_inv hacc hinv) heq

/-- A list starting with a concatenation starts with its first part. -/
theorem startsWithL_of_append {l p q : List Char}
    (h : startsWithL l (p ++ q) = true) : startsWithL l p = true := by
  induction p generalizing l with
  | nil => cases l <;> rfl
  | cons a p' ih =>
    cases l with
    | nil => exact absurd h (by simp [startsWithL])
    | cons c r =>
      rw [List.cons_append] at h
      unfold startsWithL at h ⊢
      rw [Bool.and_eq_true] at h
      rw [h.1, Bool.true_and]
      exact ih h.2

/-- A string starting with `#HttpOnly_` starts with `#`. -/
theorem startsWith_hash_of_httponly {l : String}
    (h : pyStartsWith l "#HttpOnly_" = true) : pyStartsWith l "#" = true := by
  unfold pyStartsWith at h ⊢
  have hsplit : ("#HttpOnly_").data = ("#").data ++ ("HttpOnly_").data := by decide
  rw [hsplit] at h
  exact startsWithL_of_append h

/-- A string starting with `#` is not empty. -/
theorem ne_empty_of_startsWith_hash {l : String}
    (h : pyStartsWith l "#" = true) : (l == "") = false := by
  cases hbe : (l == "") with
  | false => rfl
  | true =>
    rw [beq_iff_eq] at hbe
    rw [hbe] at h
    exact absurd h (by decide)

/-- Build `cleanStr` from its parts. -/
theorem cleanStr_of_parts {s : String} (h1 : s.data ≠ [])
    (h2 : ∀ c ∈ s.data, cleanChar c = true) : cleanStr s = true := by
  unfold cleanStr
  rw [Bool.and_eq_true, Bool.not_eq_true']
  constructor
  · rw [beq_eq_false_iff_ne]
    intro he
    rw [he] at h1
    exact h1 rfl
  · simpa [List.all_eq_true] using h2

/-- Field decomposition of a seven-field tab-separated line. -/
theorem seven_field_line_data (f1 f2 f3 f4 f5 n v : String) :
    (f1 ++ "\t" ++ f2 ++ "\t" ++ f3 ++ "\t" ++ f4 ++ "\t" ++ f5 ++ "\t"
      ++ n ++ "\t" ++ v).data =
      f1.data ++ '\t' :: (f2.data ++ '\t' :: (f3.data ++ '\t' ::
      (f4.data ++ '\t' :: (f5.data ++ '\t' :: (n.data ++ '\t' :: v.data))))) := by
  have ht : ("\t" : String).data = ['\t'] := rfl
  simp [String.data_append, ht, List.append_assoc]

/-- `parse_cookies` parses a clean seven-field line into its name/value
pair. -/
theorem netscapeStep_clean_line {d : List (String × String)}
    {f1 f2 f3 f4 f5 n v : String}
    (hf1 : cleanStr f1 = true) (hf1h : pyStartsWith f1 "#" = false)
    (hf2 : cleanStr f2 = true) (hf3 : cleanStr f3 = true)
    (hf4 : cleanStr f4 = true) (hf5 : cleanStr f5 = true)
    (hn : cleanStr n = true) (hv : cleanStr v = true) :
    netscapeStep d (f1 ++ "\t" ++ f2 ++ "\t" ++ f3 ++ "\t" ++ f4 ++ "\t" ++ f5
      ++ "\t" ++ n ++ "\t" ++ v) = dictInsert d n v := by
  obtain ⟨hf1ne, hf1c⟩ := cleanStr_spec hf1
  obtain ⟨hvne, hvc⟩ := cleanStr_spec hv
  have hdata := seven_field_line_data f1 f2 f3 f4 f5 n v
  have hline : (f1 ++ "\t" ++ f2 ++ "\t" ++ f3 ++ "\t" ++ f4 ++ "\t" ++ f5
      ++ "\t" ++ n ++ "\t" ++ v).data =
      (f1 ++ "\t" ++ f2 ++ "\t" ++ f3 ++ "\t" ++ f4 ++ "\t" ++ f5
      ++ "\t" ++ n ++ "\t").data ++ v.data := String.data_append _ _
  cases hf1d : f1.data with
  | nil => exact absurd hf1d hf1ne
  | cons a t =>
    have hac : cleanChar a = true := hf1c a (by rw [hf1d]; simp)
    have hhead : (f1 ++ "\t" ++ f2 ++ "\t" ++ f3 ++ "\t" ++ f4 ++ "\t" ++ f5
        ++ "\t" ++ n ++ "\t" ++ v).data.head? = some a := by
      rw [hdata, hf1d]
      rfl
    have hahash : (a == '#') = false := by
      cases hb : (a == '#') with
      | false => rfl
      | true =>
        rw [beq_iff_eq] at hb
        subst hb
        unfold pyStartsWith at hf1h
        rw [hf1d, show ("#" : String).data = ['#'] from rfl] at hf1h
        unfold startsWithL at hf1h
        rw [beq_self_eq_true, Bool.true_and] at hf1h
        have ht : startsWithL t [] = true := by cases t <;> rfl
        rw [ht] at hf1h
        cases hf1h
    have hlinehash : pyStartsWith (f1 ++ "\t" ++ f2 ++ "\t" ++ f3 ++ "\t" ++ f4
        ++ "\t" ++ f5 ++ "\t" ++ n ++ "\t" ++ v) "#" = false := by
      unfold pyStartsWith
      rw [hdata, hf1d, show ("#" : String).data = ['#'] from rfl, List.cons_append]
      unfold startsWithL
      rw [hahash, Bool.false_and]
    have hHO : pyStartsWith (f1 ++ "\t" ++ f2 ++ "\t" ++ f3 ++ "\t" ++ f4
        ++ "\t" ++ f5 ++ "\t" ++ n ++ "\t" ++ v) "#HttpOnly_" = false := by
      cases hb : pyStartsWith (f1 ++ "\t" ++ f2 ++ "\t" ++ f3 ++ "\t" ++ f4
        ++ "\t" ++ f5 ++ "\t" ++ n ++ "\t" ++ v) "#HttpOnly_" with
      | false => rfl
      | true =>
        have h2 := startsWith_hash_of_httponly hb
        rw [hlinehash] at h2
        cases h2
    cases hvr : v.data.reverse with
    | nil => exact absurd (by simpa using congrArg List.reverse hvr) hvne
    | cons b u =>
      have hbmem : b ∈ v.data := by
        rw [← List.mem_reverse, hvr]
        exact List.mem_cons_self _ _
      have hbc : cleanChar b = true := hvc b hbmem
      have h2 : (f1 ++ "\t" ++ f2 ++ "\t" ++ f3 ++ "\t" ++ f4 ++ "\t" ++ f5
          ++ "\t" ++ n ++ "\t" ++ v).data.reverse.head? = some b := by
        rw [hline, List.reverse_append, hvr]
        rfl
      have hstrip : pyStrip (f1 ++ "\t" ++ f2 ++ "\t" ++ f3 ++ "\t" ++ f4
          ++ "\t" ++ f5 ++ "\t" ++ n ++ "\t" ++ v) =
          f1 ++ "\t" ++ f2 ++ "\t" ++ f3 ++ "\t" ++ f4 ++ "\t" ++ f5
          ++ "\t" ++ n ++ "\t" ++ v := by
        unfold pyStrip
        rw [stripList_noop hhead (cleanChar_not_ws hac) h2 (cleanChar_not_ws hbc)]
      have hne : ((f1 ++ "\t" ++ f2 ++ "\t" ++ f3 ++ "\t" ++ f4 ++ "\t" ++ f5
          ++ "\t" ++ n ++ "\t" ++ v) == "") = false := by
        rw [beq_eq_false_iff_ne]
        intro he
        rw [he] at hdata
        rw [hf1d] at hdata
        simp at hdata
      have htab : ∀ s : String, cleanStr s = true →
          ∀ c ∈ s.data, (c == '\t') = false := by
        intro s hs c hc
        exact cleanChar_ne_tab ((cleanStr_spec hs).2 c hc)
      have hparts : (splitOnChar '\t' (pyStrip (f1 ++ "\t" ++ f2 ++ "\t" ++ f3
          ++ "\t" ++ f4 ++ "\t" ++ f5 ++ "\t" ++ n ++ "\t" ++ v)).data).map
          String.mk = [f1, f2, f3, f4, f5, n, v] := by
        rw [hstrip, hdata, splitOnChar_append _ (htab f1 hf1),
          splitOnChar_append _ (htab f2 hf2), splitOnChar_append _ (htab f3 hf3),
          splitOnChar_append _ (htab f4 hf4), splitOnChar_append _ (htab f5 hf5),
          splitOnChar_append _ (htab n hn), splitOnChar_no_sep (htab v hv)]
        rfl
      simp only [netscapeStep]
      rw [hstrip] at hparts ⊢
      rw [hne, hlinehash, hHO]
      simp only [Bool.false_and, Bool.or_self, Bool.false_eq_true, if_false]
      unfold netscapeRecord
      rw [hparts]
      rfl

/-- `dictInsert` never yields the empty dictionary. -/
theorem dictInsert_ne_nil (d : List (String × String)) (k v : String) :
    dictInsert d k v ≠ [] := by
  cases d with
  | nil => simp [dictInsert]
  | cons p rest =>
    unfold dictInsert
    split <;> simp

/-- The JSON comprehension fold preserves non-emptiness. -/
theorem foldl_jsonFoldStep_ne_nil :
    ∀ (t : List JsonCookie) (d : List (String × String)), d ≠ [] →
      t.foldl jsonFoldStep d ≠ [] := by
  intro t
  induction t with
  | nil => intro d hd; exact hd
  | cons r rest ih =>
    intro d hd
    rw [List.foldl_cons]
    apply ih
    unfold jsonFoldStep
    rcases r.name with _ | nn <;> rcases r.value with _ | vv <;>
      first
        | exact hd
        | exact dictInsert_ne_nil d nn vv

/-- A record missing `name` or `value` produces no tab-separated line. -/
theorem toLine_none_of_skip {r : JsonCookie}
    (h : r.name = none ∨ r.value = none) :
    json_to_netscape_cookie r = none := by
  rcases h with h | h <;> simp [json_to_netscape_cookie, h]

/-- If the JSON comprehension is empty, every record was skipped. -/
theorem jsonStep_nil {arr : List JsonCookie}
    (h : jsonStepCookies arr = []) :
    ∀ r ∈ arr, r.name = none ∨ r.value = none := by
  unfold jsonStepCookies at h
  induction arr with
  | nil => intro r hr; cases hr
  | cons q t ih =>
    intro r hr
    rw [List.foldl_cons] at h
    rcases hqn : q.name with _ | nq
    · have hstep : jsonFoldStep [] q = [] := by
        unfold jsonFoldStep
        rw [hqn]
      rcases List.mem_cons.1 hr with rfl | hr2
      · exact Or.inl hqn
      · exact ih (by rw [hstep] at h; exact h) r hr2
    · rcases hqv : q.value with _ | vq
      · have hstep : jsonFoldStep [] q = [] := by
          unfold jsonFoldStep
          rw [hqn, hqv]

        rcases List.mem_cons.1 hr with rfl | hr2
        · exact Or.inr hqv
        · exact ih (by rw [hstep] at h; exact h) r hr2
      · have hstep : jsonFoldStep [] q = dictInsert [] nq vq := by
          unfold jsonFoldStep
          rw [hqn, hqv]
        rw [hstep] at h
        exact absurd h (foldl_jsonFoldStep_ne_nil t _ (dictInsert_ne_nil _ _ _))

/-- The explicit line a qualifying record converts to. -/
theorem toLine_some {r : JsonCookie} {n v : String}
    (hn : r.name = some n) (hv : r.value = some v)
    (hcn : cleanStr n = true) (hcv : cleanStr v = true) :
    json_to_netscape_cookie r = some ((r.domain.getD "") ++ "\t"
      ++ (if pyStartsWith (r.domain.getD "") "." then "TRUE" else "FALSE")
      ++ "\t" ++ (r.path.getD "/") ++ "\t"
      ++ (if r.secure.getD false then "TRUE" else "FALSE") ++ "\t"
      ++ intStr (r.expirationDate.getD 0) ++ "\t" ++ n ++ "\t" ++ v) := by
  have hnne : (n == "") = false := by
    rw [beq_eq_false_iff_ne]
    intro he
    exact (cleanStr_spec hcn).1 (by rw [he])
  have hvne2 : (v == "") = false := by
    rw [beq_eq_false_iff_ne]
    intro he
    exact (cleanStr_spec hcv).1 (by rw [he])
  unfold json_to_netscape_cookie
  rw [hn, hv]
  simp only [Option.getD_some]
  rw [hnne, hvne2]
  rfl

/-- The fold of `parse_cookies`' tab scan over the generated lines
agrees with the JSON comprehension fold. -/
theorem fold_lines_eq {arr : List JsonCookie}
    (hrec : ∀ r ∈ arr, RecClean r) :
    ∀ d, (arr.filterMap json_to_netscape_cookie).foldl netscapeStep d =
      arr.foldl jsonFoldStep d := by
  induction arr with
  | nil => intro d; rfl
  | cons r t ih =>
    intro d
    have hr := hrec r (List.mem_cons_self _ _)
    have iht := ih (fun x hx => hrec x (List.mem_cons_of_mem _ hx))
    rcases hn : r.name with _ | n
    · rw [List.filterMap_cons_none (toLine_none_of_skip (Or.inl hn)),
        List.foldl_cons, show jsonFoldStep d r = d from by
          unfold jsonFoldStep
          rw [hn]]
      exact iht d
    · rcases hv : r.value with _ | v
      · rw [List.filterMap_cons_none (toLine_none_of_skip (Or.inr hv)),
          List.foldl_cons, show jsonFoldStep d r = d from by
            unfold jsonFoldStep
            rw [hn, hv]]
        exact iht d
      · obtain ⟨hcn, hcv, hcd, hcp, hcdh⟩ :=
          hr (by rw [hn]; rfl) (by rw [hv]; rfl)
        rw [show r.name.getD "" = n from by rw [hn]; rfl] at hcn
        rw [show r.value.getD "" = v from by rw [hv]; rfl] at hcv
        have hflag : cleanStr (if pyStartsWith (r.domain.getD "") "."
            then "TRUE" else "FALSE") = true := by
          split <;> decide
        have hsec : cleanStr (if r.secure.getD false then "TRUE" else "FALSE")
            = true := by
          split <;> decide
        have hexp : cleanStr (intStr (r.expirationDate.getD 0)) = true :=
          cleanStr_of_parts (intStr_clean _).1 (intStr_clean _).2
        rw [List.filterMap_cons_some (toLine_some hn hv hcn hcv),
          List.foldl_cons, List.foldl_cons,
          netscapeStep_clean_line hcd hcdh hflag hcp hsec hexp hcn hcv,
          show jsonFoldStep d r = dictInsert d n v from by
            unfold jsonFoldStep
            rw [hn, hv]]
        exact iht _

/-- Every generated line is non-empty and line-break free. -/
theorem lines_clean {arr : List JsonCookie}
    (hrec : ∀ r ∈ arr, RecClean r) :
    ∀ l ∈ arr.filterMap json_to_netscape_cookie,
      l.data ≠ [] ∧ ∀ c ∈ l.data, isLineBreak c = false := by
  intro l hl
  obtain ⟨r, hr, hsome⟩ := List.mem_filterMap.1 hl
  rcases hn : r.name with _ | n
  · rw [toLine_none_of_skip (Or.inl hn)] at hsome
    cases hsome
  · rcases hv : r.value with _ | v
    · rw [toLine_none_of_skip (Or.inr hv)] at hsome
      cases hsome
    · obtain ⟨hcn, hcv, hcd, hcp, _⟩ :=
        hrec r hr (by rw [hn]; rfl) (by rw [hv]; rfl)
      rw [show r.name.getD "" = n from by rw [hn]; rfl] at hcn
      rw [show r.value.getD "" = v from by rw [hv]; rfl] at hcv
      rw [toLine_some hn hv hcn hcv] at hsome
      injection hsome with hsome
      subst hsome
      have hflag : cleanStr (if pyStartsWith (r.domain.getD "") "."
          then "TRUE" else "FALSE") = true := by
        split <;> decide
      have hsec : cleanStr (if r.secure.getD false then "TRUE" else "FALSE")
          = true := by
        split <;> decide
      have hexp : cleanStr (intStr (r.expirationDate.getD 0)) = true :=
        cleanStr_of_parts (intStr_clean _).1 (intStr_clean _).2
      constructor
      · rw [seven_field_line_data]
        cases hd : (r.domain.getD "").data with
        | nil => exact absurd hd (cleanStr_spec hcd).1
        | cons a t => simp [hd]
      · intro c hc
        rw [seven_field_line_data] at hc
        have hnb : ∀ (s : String), cleanStr s = true → c ∈ s.data →
            isLineBreak c = false := by
          intro s hs hcs
          exact cleanChar_not_break ((cleanStr_spec hs).2 c hcs)
        have htb : isLineBreak '\t' = false := by decide
        rcases List.mem_append.1 hc with h1 | h1
        · exact hnb _ hcd h1
        rcases List.mem_cons.1 h1 with rfl | h1
        · exact htb
        rcases List.mem_append.1 h1 with h2 | h2
        · exact hnb _ hflag h2
        rcases List.mem_cons.1 h2 with rfl | h2
        · exact htb
        rcases List.mem_append.1 h2 with h3 | h3
        · exact hnb _ hcp h3
        rcases List.mem_cons.1 h3 with rfl | h3
        · exact htb
        rcases List.mem_append.1 h3 with h4 | h4
        · exact hnb _ hsec h4
        rcases List.mem_cons.1 h4 with rfl | h4
        · exact htb
        rcases List.mem_append.1 h4 with h5 | h5
        · exact hnb _ hexp h5
        rcases List.mem_cons.1 h5 with rfl | h5
        · exact htb
        rcases List.mem_append.1 h5 with h6 | h6
        · exact hnb _ hcn h6
        rcases List.mem_cons.1 h6 with rfl | h6
        · exact htb
        · exact hnb _ hcv h6

/-- Field decomposition of one generated fallback cookie line. -/
theorem fallback_line_data (n v : String) :
    (".openai.com\tTRUE\t/\tFALSE\t0\t" ++ n ++ "\t" ++ v).data =
      ".openai.com".data ++ '\t' :: ("TRUE".data ++ '\t' ::
      ("/".data ++ '\t' :: ("FALSE".data ++ '\t' :: ("0".data ++ '\t' ::
      (n.data ++ '\t' :: v.data))))) := by
  have hpre : (".openai.com\tTRUE\t/\tFALSE\t0\t" : String).data =
      ".openai.com".data ++ '\t' :: ("TRUE".data ++ '\t' ::
      ("/".data ++ '\t' :: ("FALSE".data ++ '\t' ::
      ("0".data ++ ['\t'])))) := by decide
  simp [String.data_append, hpre, List.append_assoc]

/-- A generated fallback line with clean non-empty name and value is
dropped by the jar parser: its expiry field is `"0"`, in the past. -/
theorem jarLineStep_fallback_line {now : Int} {pn : String → Option Int}
    {jar : List JarCookie} {n v : String}
    (hnow : 0 < now) (h0 : pn "0" = some 0)
    (hn : cleanStr n = true) (hv : cleanStr v = true) :
    jarLineStep now pn jar (".openai.com\tTRUE\t/\tFALSE\t0\t" ++ n ++ "\t" ++ v) =
      Except.ok jar := by
  obtain ⟨hnne, hnc⟩ := cleanStr_spec hn
  obtain ⟨hvne, hvc⟩ := cleanStr_spec hv
  have hline : (".openai.com\tTRUE\t/\tFALSE\t0\t" ++ n ++ "\t" ++ v).data =
      (".openai.com\tTRUE\t/\tFALSE\t0\t" ++ n ++ "\t").data ++ v.data :=
    String.data_append _ _
  have hdata := fallback_line_data n v
  have hhead : (".openai.com\tTRUE\t/\tFALSE\t0\t" ++ n ++ "\t" ++ v).data.head? =
      some '.' := by rw [hdata]; rfl
  cases hvr : v.data.reverse with
  | nil => exact absurd (by simpa using congrArg List.reverse hvr) hvne
  | cons b u =>
    have hbmem : b ∈ v.data := by
      rw [← List.mem_reverse, hvr]
      exact List.mem_cons_self _ _
    have hbc : cleanChar b = true := hvc b hbmem
    have h2 : (".openai.com\tTRUE\t/\tFALSE\t0\t" ++ n ++ "\t" ++ v).data.reverse.head? =
        some b := by
      rw [hline, List.reverse_append, hvr]
      rfl
    have hstrip : pyStrip (".openai.com\tTRUE\t/\tFALSE\t0\t" ++ n ++ "\t" ++ v) =
        ".openai.com\tTRUE\t/\tFALSE\t0\t" ++ n ++ "\t" ++ v := by
      unfold pyStrip
      rw [stripList_noop hhead (by decide) h2 (cleanChar_not_ws hbc)]
    have hne : ((".openai.com\tTRUE\t/\tFALSE\t0\t" ++ n ++ "\t" ++ v) == "") = false := by
      rw [beq_eq_false_iff_ne]
      intro he
      rw [he] at hdata
      simp at hdata
    have hhash : pyStartsWith
        (".openai.com\tTRUE\t/\tFALSE\t0\t" ++ n ++ "\t" ++ v) "#" = false := by
      unfold pyStartsWith
      rw [hdata]
      rfl
    have hntab : ∀ c ∈ n.data, (c == '\t') = false :=
      fun c hc => cleanChar_ne_tab (hnc c hc)
    have hvtab : ∀ c ∈ v.data, (c == '\t') = false :=
      fun c hc => cleanChar_ne_tab (hvc c hc)
    have hparts : (splitOnChar '\t'
        (pyStrip (".openai.com\tTRUE\t/\tFALSE\t0\t" ++ n ++ "\t" ++ v)).data).map
          String.mk = [".openai.com", "TRUE", "/", "FALSE", "0", n, v] := by
      rw [hstrip, hdata, splitOnChar_append _ (by decide),
        splitOnChar_append _ (by decide), splitOnChar_append _ (by decide),
        splitOnChar_append _ (by decide), splitOnChar_append _ (by decide),
        splitOnChar_append _ hntab, splitOnChar_no_sep hvtab]
      rfl
    simp only [jarLineStep]
    rw [hstrip] at hparts ⊢
    rw [hne, hhash]
    simp only [Bool.or_self, Bool.false_or, if_false, Bool.false_eq_true]
    rw [hparts]
    simp only [List.length_cons, List.length_nil]
    rw [if_neg (by omega)]
    rw [h0]
    dsimp only
    rw [if_pos hnow]

/-- The jar built by the `process_one_file` semicolon fallback is empty
whenever the extracted names and values are clean: every generated line
carries expiry `0`, which is in the past. -/
theorem fallbackJar_expiry_zero {now : Int} {pn : String → Option Int}
    {text : String} (hnow : 0 < now) (h0 : pn "0" = some 0)
    (hclean : ∀ p ∈ fallbackMap text,
      cleanStr p.1 = true ∧ cleanStr p.2 = true) :
    fallbackJar now pn text = Except.ok none := by
  unfold fallbackJar
  by_cases hm : (fallbackMap text).isEmpty = true
  · rw [if_pos hm]
  · rw [if_neg hm]
    unfold parse_cookie_file fallbackText
    have hlines : pySplitLines (pyJoinNL ("# Netscape HTTP Cookie File" ::
        (fallbackMap text).map
          (fun p => ".openai.com\tTRUE\t/\tFALSE\t0\t" ++ p.1 ++ "\t" ++ p.2))) =
        "# Netscape HTTP Cookie File" :: (fallbackMap text).map
          (fun p => ".openai.com\tTRUE\t/\tFALSE\t0\t" ++ p.1 ++ "\t" ++ p.2) := by
      apply pySplitLines_join
      intro l hl
      rcases List.mem_cons.1 hl with rfl | hl2
      · exact ⟨by decide, by decide⟩
      · obtain ⟨p, hp, rfl⟩ := List.mem_map.1 hl2
        obtain ⟨h1, h2⟩ := hclean p hp
        obtain ⟨h1ne, h1c⟩ := cleanStr_spec h1
        obtain ⟨h2ne, h2c⟩ := cleanStr_spec h2
        constructor
        · rw [fallback_line_data]
          rw [show (".openai.com" : String).data = '.' :: "openai.com".data
            from rfl]
          simp
        · intro c hc
          rw [show (".openai.com\tTRUE\t/\tFALSE\t0\t" ++ p.1 ++ "\t" ++ p.2) =
            ((".openai.com\tTRUE\t/\tFALSE\t0\t" ++ p.1) ++ "\t") ++ p.2
            from rfl, String.data_append, String.data_append,
            String.data_append] at hc
          have hlit : ∀ x ∈ (".openai.com\tTRUE\t/\tFALSE\t0\t" : String).data,
              isLineBreak x = false := by decide
          rcases List.mem_append.1 hc with hc1 | hcv
          · rcases List.mem_append.1 hc1 with hc2 | hct
            · rcases List.mem_append.1 hc2 with hcp | hcn
              · exact hlit c hcp
              · exact cleanChar_not_break (h1c c hcn)
            · simp at hct
              subst hct
              decide
          · exact cleanChar_not_break (h2c c hcv)
    rw [hlines]
    have hsteps : ∀ line ∈ ("# Netscape HTTP Cookie File" ::
        (fallbackMap text).map
          (fun p => ".openai.com\tTRUE\t/\tFALSE\t0\t" ++ p.1 ++ "\t" ++ p.2)),
        ∀ acc, jarStep now pn acc line = acc := by
      intro line hl acc
      cases acc with
      | error e => rfl
      | ok jar =>
        rcases List.mem_cons.1 hl with rfl | hl2
        · rfl
        · obtain ⟨p, hp, rfl⟩ := List.mem_map.1 hl2
          obtain ⟨h1, h2⟩ := hclean p hp
          exact jarLineStep_fallback_line hnow h0 h1 h2
    rw [foldl_fixed (jarStep now pn) _ hsteps (Except.ok [])]
    rfl

/-- If the html does not contain the enqueue needle, the extraction
regex finds no match. -/
theorem searchEnqueue_eq_none {s : List Char}
    (h : containsSub s enqueueNeedle = false) : searchEnqueue s = none := by
  induction s with
  | nil => rfl
  | cons c rest ih =>
    unfold containsSub at h
    rw [Bool.or_eq_false_iff] at h
    unfold searchEnqueue
    rw [h.1]
    exact ih h.2

/-- If the whitespace-dropped list is all whitespace, so was the list. -/
theorem all_ws_of_dropWs {l : List Char}
    (h : ∀ c ∈ dropWs l, isPyWs c = true) : ∀ c ∈ l, isPyWs c = true := by
  induction l with
  | nil => intro c hc; cases hc
  | cons a t ih =>
    intro c hc
    by_cases ha : isPyWs a = true
    · rcases List.mem_cons.1 hc with rfl | hct
      · exact ha
      · exact ih (by rw [dropWs, if_pos ha] at h; exact h) c hct
    · rw [dropWs, if_neg ha] at h
      exact h c hc

/-- `dropWs` yields the empty list only when everything was whitespace. -/
theorem all_ws_of_dropWs_nil {l : List Char} (h : dropWs l = []) :
    ∀ c ∈ l, isPyWs c = true :=
  all_ws_of_dropWs (by rw [h]; intro c hc; cases hc)

/-- A string that strips to empty was all whitespace. -/
theorem all_ws_of_stripList_nil {l : List Char} (h : stripList l = []) :
    ∀ c ∈ l, isPyWs c = true := by
  unfold stripList at h
  rw [List.reverse_eq_nil_iff] at h
  have h2 := all_ws_of_dropWs_nil h
  have h3 : ∀ c ∈ dropWs l, isPyWs c = true := by
    intro c hc
    exact h2 c (by rw [List.mem_reverse]; exact hc)
  exact all_ws_of_dropWs h3

/-- Members survive `dropWs` backwards. -/
theorem mem_of_mem_dropWs {l : List Char} {c : Char} (h : c ∈ dropWs l) :
    c ∈ l := by
  induction l with
  | nil => cases h
  | cons a t ih =>
    rw [dropWs] at h
    by_cases ha : isPyWs a = true
    · rw [if_pos ha] at h; exact List.mem_cons_of_mem a (ih h)
    · rw [if_neg ha] at h; exact h

/-- Members of a stripped list are members of the original. -/
theorem mem_of_mem_stripList {l : List Char} {c : Char}
    (h : c ∈ stripList l) : c ∈ l := by
  unfold stripList at h
  rw [List.mem_reverse] at h
  have := mem_of_mem_dropWs h
  rw [List.mem_reverse] at this
  exact mem_of_mem_dropWs this

/-- Characters of a fragment come from the split input. -/
theorem mem_of_mem_splitOnChar {sep : Char} {l frag : List Char} {c : Char}
    (hf : frag ∈ splitOnChar sep l) (hc : c ∈ frag) : c ∈ l := by
  induction l generalizing frag with
  | nil =>
    simp [splitOnChar] at hf
    subst hf
    cases hc
  | cons a rest ih =>
    cases hs : splitOnChar sep rest with
    | nil => exact absurd hs (splitOnChar_ne_nil sep rest)
    | cons hh tt =>
      by_cases ha : (a == sep) = true
      · have hf' : frag ∈ ([] : List Char) :: hh :: tt := by
          simpa [splitOnChar, hs, ha] using hf
        rcases List.mem_cons.1 hf' with rfl | hf2
        · cases hc
        · exact List.mem_cons_of_mem a (ih (by rw [hs]; exact hf2) hc)
      · have hf' : frag ∈ (a :: hh) :: tt := by
          simpa [splitOnChar, hs, ha] using hf
        rcases List.mem_cons.1 hf' with rfl | hf2
        · rcases List.mem_cons.1 hc with rfl | hc2
          · exact List.mem_cons_self c rest
          · exact List.mem_cons_of_mem a
              (@ih hh (by rw [hs]; exact List.mem_cons_self hh tt) hc2)
        · exact List.mem_cons_of_mem a
            (ih (by rw [hs]; exact List.mem_cons_of_mem hh hf2) hc)

/-- `split(sep, 1)` finds nothing when the separator is absent. -/
theorem firstSplit_eq_none {sep : Char} {l : List Char}
    (h : ∀ c ∈ l, (c == sep) = false) : firstSplit sep l = none := by
  induction l with
  | nil => rfl
  | cons a t ih =>
    unfold firstSplit
    rw [h a (by simp)]
    simp only [Bool.false_eq_true, if_false]
    rw [ih (fun c hc => h c (by simp [hc]))]

/-- The semicolon fallback of `parse_cookies` extracts nothing from an
all-whitespace blob (no fragment can contain `=`). -/
theorem fallbackPairs_all_ws {content : String}
    (h : ∀ c ∈ content.data, isPyWs c = true) : fallbackPairs content = [] := by
  unfold fallbackPairs
  apply foldl_fixed
  intro frag hfrag d
  unfold fallbackStep
  rw [firstSplit_eq_none]
  intro c hc
  have hmem : c ∈ content.data :=
    mem_of_mem_splitOnChar hfrag (mem_of_mem_stripList hc)
  have := h c hmem
  cases hbe : (c == '=') with
  | false => rfl
  | true =>
    rw [beq_iff_eq] at hbe
    subst hbe
    simp [isPyWs] at this

/-! ### Claim theorems -/

/-- C3: normalizing `"auth_pkey=x; session=y"` through the semicolon
cookie-header fallback yields exactly `{auth_pkey: "x", session: "y"}`,
and a malformed semicolon-separated fragment without an `=` (the empty
fragment produced by `";;"`) is skipped without error, leaving the same
result.  The JSON outcome is irrelevant because the JSON branch is not
taken for a `.txt` file whose content does not start with `[`. -/
theorem c3_semicolon_fallback_scenario (jo : JsonOutcome) :
    parse_cookies "auth_pkey=x; session=y" "txt" jo =
      [("auth_pkey", "x"), ("session", "y")] ∧
    parse_cookies "auth_pkey=x;; session=y" "txt" jo =
      [("auth_pkey", "x"), ("session", "y")] := by
  rw [parse_cookies_guard_false _ _ _ (by decide),
    parse_cookies_guard_false _ _ _ (by decide)]
  exact ⟨by decide, by decide⟩

/-- C1 counterexample: a payload carrying both sentinels contains an
authentication-status marker equal to `"logged_out"` together with
other markers, yet both resolver variants return a valid verdict —
the claim's "logged out ⇒ Invalid regardless of any other markers
present in the payload" fails on it. -/
theorem c1_counterexample :
    pyContains (loggedInLit ++ loggedOutLit) loggedOutLit = true ∧
    resolveAuth (loggedInLit ++ loggedOutLit) = true ∧
    workingResolve (fun _ => "") (loggedInLit ++ loggedOutLit) "" ≠
      Verdict.invalid := by
  refine ⟨by decide, by decide, ?_⟩
  unfold workingResolve
  rw [if_pos (by decide)]
  intro h
  exact Verdict.noConfusion h

/-- C1 amended: the `logged_in` test runs first, so a payload containing
the logged-in sentinel resolves valid whatever else it contains, and a
payload not containing it (in particular one with a `logged_out` marker,
or with no marker) resolves invalid. -/
theorem c1_auth_precedence (payload : String) :
    (pyContains payload loggedInLit = true → resolveAuth payload = true) ∧
    (pyContains payload loggedInLit = false → resolveAuth payload = false) := by
  unfold resolveAuth
  constructor <;> intro h <;> simp [h]

/-- C1 witness: the amended theorem applied at the two sentinels and at
the empty payload. -/
theorem c1_auth_precedence_witness :
    resolveAuth loggedInLit = true ∧ resolveAuth loggedOutLit = false ∧
    resolveAuth "" = false :=
  ⟨(c1_auth_precedence loggedInLit).1 (by decide),
   (c1_auth_precedence loggedOutLit).2 (by decide),
   (c1_auth_precedence "").2 (by decide)⟩

/-- C2 counterexample: the blob `[1]` with hint `json` decodes to a
list whose only element is a number; `'name' in 1` raises `TypeError`,
which the `except json.JSONDecodeError` clause does not catch, so the
task dies before the `if not cookies` guard — neither a CookieSet nor a
format-error report is produced, refuting the claimed dichotomy. -/
theorem c2_counterexample :
    parse_cookies_full "[1]" "json" (JsonLoads.list [JsonElem.bad]) =
      Except.error () ∧
    normalizeFull "[1]" "json" (JsonLoads.list [JsonElem.bad]) =
      NormalizeResult.crashed ∧
    NormalizeResult.crashed ≠ NormalizeResult.formatError :=
  ⟨rfl, rfl, by decide⟩

/-- C2 amended: whenever `parse_cookies` returns — the decoder raised
nothing worse than the caught `JSONDecodeError` and no decoded list
element made the comprehension raise — the dichotomy holds: an empty
result is reported as a format error terminating the job and a
non-empty result is a CookieSet with at least one entry, never a silent
empty continuation; the empty blob and an all-encodings-unparseable
blob both report the error, and an empty cookie set always produces
exactly the requester-directed format-error delivery.  But an uncaught
exception in the JSON step (see the counterexample) kills the job with
neither outcome. -/
theorem c2_normalize_dichotomy_unless_raise :
    (∀ (content ftype : String) (jl : JsonLoads) (cs0 : List (String × String)),
      parse_cookies_full content ftype jl = Except.ok cs0 →
      (cs0 = [] → normalizeFull content ftype jl = NormalizeResult.formatError) ∧
      (cs0 ≠ [] → normalizeFull content ftype jl = NormalizeResult.cookies cs0)) ∧
    (∀ ftype : String,
      normalizeFull "" ftype JsonLoads.decodeError = NormalizeResult.formatError) ∧
    normalizeFull "no cookies in this blob" "txt" JsonLoads.decodeError =
      NormalizeResult.formatError ∧
    (∀ (u : String → Option String) (o : ProbeOutcome),
      botProcessFile u [] o = [⟨Recipient.requester, MsgKind.formatError⟩]) ∧
    (∀ (u : String → Option String) (f : Nat → String) (o : ProbeOutcome),
      workingProcessFile u f [] o = [⟨Recipient.requester, MsgKind.formatError⟩]) := by
  refine ⟨?_, ?_, by rfl, ?_, ?_⟩
  · intro content ftype jl cs0 h
    unfold normalizeFull
    rw [h]
    constructor
    · intro he
      rw [he]
      rfl
    · intro hne
      dsimp only
      rw [if_neg (by simp [List.isEmpty_iff, hne])]
  · intro ftype
    unfold normalizeFull parse_cookies_full
    cases h : (pyLower ftype == "json" || pyStartsWith (pyLStrip "") "[") with
    | false => rfl
    | true => rfl
  · intro u o; rfl
  · intro u f o; rfl

/-- C2 witness: the amended dichotomy applied to a non-empty paste and
to the empty blob. -/
theorem c2_normalize_dichotomy_unless_raise_witness :
    normalizeFull "a=b" "txt" JsonLoads.decodeError =
      NormalizeResult.cookies [("a", "b")] ∧
    normalizeFull "" "txt" JsonLoads.decodeError =
      NormalizeResult.formatError :=
  ⟨(c2_normalize_dichotomy_unless_raise.1 "a=b" "txt" JsonLoads.decodeError
      [("a", "b")] rfl).2 (by decide),
   (c2_normalize_dichotomy_unless_raise.1 "" "txt" JsonLoads.decodeError
      [] rfl).1 rfl⟩

/-- C5: a payload containing the `logged_in` sentinel whose marker
sub-patterns (email, display name, plan, expiry — including the raw-html
expiry fallback — and MFA) all fail to match resolves to a `Valid`
verdict with every optional attribute rendered as the explicit `"N/A"`
sentinel; the formatter is total on this case. -/
theorem c5_logged_in_all_attributes_unknown
    (fmt : Nat → String) (payload html : String)
    (hin : pyContains payload loggedInLit = true)
    (hemail : searchQuoted "email" payload = none)
    (hname : searchQuoted "name" payload = none)
    (hplan : searchQuoted "planType" payload = none)
    (hplan2 : searchQuoted "subscriptionPlan" payload = none)
    (hexp : searchNumMarker "subscriptionExpiresAt" payload = none)
    (hexph : searchExpiryHtml html = none)
    (hmfa : searchBoolMarker "mfa" payload = none) :
    workingResolve fmt payload html = Verdict.valid "N/A" "N/A" "N/A" "N/A" := by
  unfold workingResolve extractEmail extractPlan extractExpires extractMfa
  rw [hin]
  simp [hemail, hname, hplan, hplan2, hexp, hexph, hmfa]

/-- C5 witness: the theorem applied to the bare logged-in sentinel
payload and an empty response body. -/
theorem c5_logged_in_all_attributes_unknown_witness :
    workingResolve (fun _ => "formatted") loggedInLit "" =
      Verdict.valid "N/A" "N/A" "N/A" "N/A" :=
  c5_logged_in_all_attributes_unknown (fun _ => "formatted") loggedInLit ""
    (by decide) (by decide) (by decide) (by decide) (by decide) (by decide)
    (by decide) (by decide)

/-- C4: when the response body is free of the streaming-enqueue string
literal, extraction returns the empty signal set and both variants
treat the record as not authenticated — working.py resolves `Invalid`
(and with a non-empty cookie set delivers only the invalid-verdict
message, not an error report), bot.py's flag is false. -/
theorem c4_missing_enqueue_literal_invalid
    (unescape : String → Option String) (fmt : Nat → String) (html : String)
    (h : pyContains html "streamController.enqueue(\"" = false) :
    extractSignalSet unescape html = emptySignalSet ∧
    workingProbe unescape fmt html = Verdict.invalid ∧
    botProbe unescape html = false ∧
    ∀ cookies : List (String × String), cookies ≠ [] →
      workingProcessFile unescape fmt cookies (ProbeOutcome.ok html) =
        [⟨Recipient.requester, MsgKind.invalidVerdict⟩] := by
  have hn : searchEnqueue html.data = none := searchEnqueue_eq_none h
  have hw : workingProbe unescape fmt html = Verdict.invalid := by
    unfold workingProbe; rw [hn]
  refine ⟨?_, hw, ?_, ?_⟩
  · unfold extractSignalSet; rw [hn]
  · unfold botProbe; rw [hn]
  · intro cookies hc
    cases cookies with
    | nil => exact absurd rfl hc
    | cons a t => simp [workingProcessFile, hw]

/-- C4 witness: the theorem applied to a literal-free response body and
a one-cookie set. -/
theorem c4_missing_enqueue_literal_invalid_witness :
    extractSignalSet (fun _ => none) "<html><body>interstitial</body></html>" =
      emptySignalSet ∧
    workingProcessFile (fun _ => none) (fun _ => "") [("a", "b")]
      (ProbeOutcome.ok "<html><body>interstitial</body></html>") =
      [⟨Recipient.requester, MsgKind.invalidVerdict⟩] :=
  ⟨(c4_missing_enqueue_literal_invalid (fun _ => none) (fun _ => "")
      "<html><body>interstitial</body></html>" (by decide)).1,
   (c4_missing_enqueue_literal_invalid (fun _ => none) (fun _ => "")
      "<html><body>interstitial</body></html>" (by decide)).2.2.2 [("a", "b")]
      (by decide)⟩

/-- C6 counterexample: in the working.py variant a probe exception
produces the error-report delivery, not the invalid-verdict delivery
the claim promises. -/
theorem c6_counterexample :
    workingProcessFile (fun _ => none) (fun _ => "") [("session", "tok")]
        ProbeOutcome.exn = [⟨Recipient.requester, MsgKind.errorReport⟩] ∧
    workingProcessFile (fun _ => none) (fun _ => "") [("session", "tok")]
        ProbeOutcome.exn ≠ [⟨Recipient.requester, MsgKind.invalidVerdict⟩] := by
  exact ⟨rfl, by decide⟩

/-- C6 amended: on a probe exception with a non-empty cookie set, bot.py
delivers exactly the invalid-verdict message and working.py exactly the
error report; in both variants the single delivery goes to the
requester only — never to the operator — and the job terminates without
crashing. -/
theorem c6_network_failure_requester_only
    (u : String → Option String) (f : Nat → String)
    (cookies : List (String × String)) (h : cookies ≠ []) :
    botProcessFile u cookies ProbeOutcome.exn =
      [⟨Recipient.requester, MsgKind.invalidVerdict⟩] ∧
    workingProcessFile u f cookies ProbeOutcome.exn =
      [⟨Recipient.requester, MsgKind.errorReport⟩] ∧
    (∀ d ∈ botProcessFile u cookies ProbeOutcome.exn,
      d.recipient = Recipient.requester) ∧
    (∀ d ∈ workingProcessFile u f cookies ProbeOutcome.exn,
      d.recipient = Recipient.requester) := by
  cases cookies with
  | nil => exact absurd rfl h
  | cons a t =>
    refine ⟨rfl, rfl, ?_, ?_⟩ <;> intro d hd <;> simp_all [botProcessFile, workingProcessFile]

/-- C6 witness: the amended theorem applied to a concrete one-cookie
set. -/
theorem c6_network_failure_requester_only_witness :
    botProcessFile (fun _ => none) [("a", "b")] ProbeOutcome.exn =
      [⟨Recipient.requester, MsgKind.invalidVerdict⟩] ∧
    workingProcessFile (fun _ => none) (fun _ => "") [("a", "b")] ProbeOutcome.exn =
      [⟨Recipient.requester, MsgKind.errorReport⟩] :=
  ⟨(c6_network_failure_requester_only (fun _ => none) (fun _ => "") [("a", "b")]
      (by decide)).1,
   (c6_network_failure_requester_only (fun _ => none) (fun _ => "") [("a", "b")]
      (by decide)).2.1⟩

/-- C8 counterexample: steps 1-2 both yield no cookies on `c8content`
and the content is non-empty, yet `parse_cookies` returns the empty
JSON-step result without attempting the semicolon fallback — which
would have produced a pair.  The successful JSON-list parse returns
early even when its comprehension is empty. -/
theorem c8_counterexample :
    jsonStepCookies [⟨some "x", none, none, none, none, none⟩] = [] ∧
    netscapeCookies c8content = [] ∧
    c8content ≠ "" ∧
    parse_cookies c8content "json" c8json = [] ∧
    fallbackPairs c8content ≠ [] := by
  exact ⟨rfl, by decide, by decide, by decide, by decide⟩

/-- C8 amended: whenever the JSON step does not return (the branch is
not taken, or `json.loads` fails or yields a non-list) and the
tab-separated step yields no cookies and the content is non-empty, the
result is exactly that of the semicolon `key=value` fallback; when the
JSON branch successfully parses a list it returns without attempting
the fallback (see the counterexample). -/
theorem c8_fallback_when_json_does_not_return
    (content ftype : String) (jo : JsonOutcome)
    (hjson : jsonBranchReturns content ftype jo = false)
    (htab : netscapeCookies content = [])
    (hne : content ≠ "") :
    parse_cookies content ftype jo = fallbackPairs content := by
  have tail_eq : parseCookiesTail content = fallbackPairs content := by
    unfold parseCookiesTail
    rw [htab]
    by_cases hstrip : (pyStrip content == "") = true
    · rw [beq_iff_eq] at hstrip
      have hws : ∀ c ∈ content.data, isPyWs c = true := by
        apply all_ws_of_stripList_nil
        have : (pyStrip content).data = "".data := by rw [hstrip]
        simpa [pyStrip] using this
      rw [fallbackPairs_all_ws hws]
      simp
    · simp only [Bool.not_eq_true] at hstrip
      simp [hstrip]
  unfold jsonBranchReturns at hjson
  cases hguard : (pyLower ftype == "json" || pyStartsWith (pyLStrip content) "[") with
  | false => rw [parse_cookies_guard_false _ _ _ hguard]; exact tail_eq
  | true =>
    rw [hguard, Bool.true_and] at hjson
    unfold parse_cookies
    rw [hguard]
    cases jo with
    | err => exact tail_eq
    | notList => exact tail_eq
    | list cs => exact absurd hjson (by simp)

/-- C8 witness: the amended theorem applied to a plain `key=value`
paste, where the fallback indeed produces the pair. -/
theorem c8_fallback_when_json_does_not_return_witness :
    parse_cookies "auth_pkey=x" "txt" JsonOutcome.err =
      fallbackPairs "auth_pkey=x" ∧
    fallbackPairs "auth_pkey=x" = [("auth_pkey", "x")] :=
  ⟨c8_fallback_when_json_does_not_return "auth_pkey=x" "txt" JsonOutcome.err
      (by decide) (by decide) (by decide),
   by decide⟩

/-- C9 counterexample: `parse_cookie_file` (withoutretry1.py) skips an
`#HttpOnly_` line outright — it has no marker exception — so the
resulting jar is empty even though parsing the stripped remainder as a
normal record (what the claim prescribes, and what `parse_cookies`
does) yields the cookie. -/
theorem c9_counterexample :
    parse_cookie_file 1700000000 decimalNum c9HttpOnlyLine = Except.ok none ∧
    parse_cookie_file 1700000000 decimalNum (pyDropChars 10 c9HttpOnlyLine) =
      Except.ok (some [⟨".openai.com", "/", false, 9999999999, "sess", "tok"⟩]) ∧
    netscapeCookies c9HttpOnlyLine = [("sess", "tok")] :=
  ⟨rfl, rfl, by decide⟩

/-- C9 amended: blank lines are ignored by both tab-separated parsers;
`parse_cookies` skips `#` comment lines except `#HttpOnly_`, whose
marker it strips before parsing the remainder as a normal record;
`parse_cookie_file` (withoutretry1.py) instead treats every `#` line —
`#HttpOnly_` included — as a comment and skips it. -/
theorem c9_comment_handling (d : List (String × String)) (line : String)
    (now : Int) (pn : String → Option Int) (jar : List JarCookie) :
    (pyStrip line = "" →
      netscapeStep d line = d ∧
      jarStep now pn (Except.ok jar) line = Except.ok jar) ∧
    (pyStartsWith (pyStrip line) "#" = true →
      pyStartsWith (pyStrip line) "#HttpOnly_" = false →
      netscapeStep d line = d ∧
      jarStep now pn (Except.ok jar) line = Except.ok jar) ∧
    (pyStartsWith (pyStrip line) "#HttpOnly_" = true →
      netscapeStep d line = netscapeRecord d (pyDropChars 10 (pyStrip line)) ∧
      jarStep now pn (Except.ok jar) line = Except.ok jar) := by
  refine ⟨?_, ?_, ?_⟩
  · intro h
    constructor
    · simp [netscapeStep, h]
    · simp [jarStep, jarLineStep, h]
  · intro h1 h2
    have hne := ne_empty_of_startsWith_hash h1
    constructor
    · simp [netscapeStep, h1, h2, hne]
    · simp [jarStep, jarLineStep, h1, hne]
  · intro h
    have h1 := startsWith_hash_of_httponly h
    have hne := ne_empty_of_startsWith_hash h1
    constructor
    · simp [netscapeStep, h, h1, hne]
    · simp [jarStep, jarLineStep, h1, hne]

/-- C9 witness: the amended theorem applied to a header comment, an
`#HttpOnly_` record line, and a blank line. -/
theorem c9_comment_handling_witness :
    netscapeStep [] "# Netscape HTTP Cookie File" = [] ∧
    netscapeStep [] "#HttpOnly_.d\tTRUE\t/\tFALSE\t0\tn\tv" =
      netscapeRecord [] ".d\tTRUE\t/\tFALSE\t0\tn\tv" ∧
    netscapeStep [] " \t " = [] ∧
    jarStep 5 decimalNum (Except.ok []) "#HttpOnly_.d\tTRUE\t/\tFALSE\t0\tn\tv" =
      Except.ok [] :=
  ⟨((c9_comment_handling [] "# Netscape HTTP Cookie File" 5 decimalNum []).2.1
      (by decide) (by decide)).1,
   ((c9_comment_handling [] "#HttpOnly_.d\tTRUE\t/\tFALSE\t0\tn\tv" 5
      decimalNum []).2.2 (by decide)).1,
   ((c9_comment_handling [] " \t " 5 decimalNum []).1 (by decide)).1,
   ((c9_comment_handling [] "#HttpOnly_.d\tTRUE\t/\tFALSE\t0\tn\tv" 5
      decimalNum []).2.2 (by decide)).2⟩

/-- C10 counterexample: the jar built from the semicolon fallback of
`c10text` is not empty — a newline and tabs smuggled inside the cookie
value make one generated "expiry-0 line" split into two physical lines,
the second of which is a full record with a far-future expiry that the
parser keeps. -/
theorem c10_counterexample :
    fallbackJar 1700000000 decimalNum c10text =
      Except.ok (some [⟨".openai.com", "/", false, 99999999999, "b", "c"⟩]) ∧
    Except.ok (some [(⟨".openai.com", "/", false, 99999999999, "b", "c"⟩ : JarCookie)]) ≠
      (Except.ok none : Except Unit (Option (List JarCookie))) :=
  ⟨rfl, by simp⟩

/-- C10 amended: every cookie in a jar that `parse_cookie_file` returns
has an expiry at least the `now` captured at parse start (non-numeric
and past expiries, `0` included, never contribute a cookie); and the
jar built from the semicolon fallback's expiry-0 lines is empty
whenever the extracted names and values are non-empty printable
non-whitespace text — without that cleanliness a value can smuggle in
extra lines (see the counterexample). -/
theorem c10_jar_expiry_invariant :
    (∀ (now : Int) (pn : String → Option Int) (content : String)
       (jar : List JarCookie),
       parse_cookie_file now pn content = Except.ok (some jar) →
       ∀ c ∈ jar, now ≤ c.expires) ∧
    (∀ (now : Int) (pn : String → Option Int) (text : String),
       0 < now → pn "0" = some 0 →
       (∀ p ∈ fallbackMap text, cleanStr p.1 = true ∧ cleanStr p.2 = true) →
       fallbackJar now pn text = Except.ok none) := by
  constructor
  · intro now pn content jar h
    unfold parse_cookie_file at h
    cases hf : (pySplitLines content).foldl (jarStep now pn) (Except.ok []) with
    | error e =>
      rw [hf] at h
      cases h
    | ok jar0 =>
      rw [hf] at h
      simp only [Except.map] at h
      injection h with h2
      have hjar : jar0 = jar := by
        by_cases he : jar0.isEmpty = true
        · rw [if_pos he] at h2
          cases h2
        · rw [if_neg he] at h2
          injection h2
      subst hjar
      exact foldl_jarStep_inv now pn (pySplitLines content) [] jar0
        (by intro c hc; cases hc) hf
  · intro now pn text hnow h0 hclean
    exact fallbackJar_expiry_zero hnow h0 hclean

/-- C10 witness: a kept cookie indeed satisfies the expiry invariant at
a concrete input, and a clean `key=value` paste builds an empty
fallback jar. -/
theorem c10_jar_expiry_invariant_witness :
    (∀ c ∈ ([⟨"d", "/", true, 200, "n", "v"⟩] : List JarCookie),
      (100 : Int) ≤ c.expires) ∧
    fallbackJar 100 decimalNum "sess=tok" = Except.ok none :=
  ⟨c10_jar_expiry_invariant.1 100 decimalNum "d\tT\t/\tTRUE\t200\tn\tv"
      [⟨"d", "/", true, 200, "n", "v"⟩] rfl,
   c10_jar_expiry_invariant.2 100 decimalNum "sess=tok" (by decide) (by decide)
      (by decide)⟩

/-- C7 counterexample: a record whose `name` is present but empty is
kept by the direct JSON normalization (the comprehension only tests key
presence) but dropped by `json_to_netscape_cookie` (which tests
truthiness), so re-normalizing the converted text loses the pair. -/
theorem c7_counterexample :
    parse_cookies "[\x7b\"name\":\"\",\"value\":\"x\"\x7d]" "json"
      (JsonOutcome.list [⟨some "", some "x", none, none, none, none⟩]) =
      [("", "x")] ∧
    netscapeText [⟨some "", some "x", none, none, none, none⟩] = "" ∧
    parse_cookies (netscapeText [⟨some "", some "x", none, none, none, none⟩])
      "txt" JsonOutcome.err = [] ∧
    ([("", "x")] : List (String × String)) ≠ [] := by
  exact ⟨by decide, by decide, by decide, by decide⟩

/-- C7 amended: the round trip holds for records whose fields are clean
— whenever every record bearing both `name` and `value` has those, its
domain and its path non-empty printable non-whitespace ASCII with the
domain not starting with `#`, and the generated text does not start
with `[` (which would re-trigger the JSON branch), converting to the
tab-separated form and re-normalizing yields exactly the name/value
pairs of normalizing the JSON array directly. -/
theorem c7_roundtrip_clean (arr : List JsonCookie) (c : String)
    (jo2 : JsonOutcome) (hrec : ∀ r ∈ arr, RecClean r)
    (hbr : pyStartsWith (pyLStrip (netscapeText arr)) "[" = false) :
    parse_cookies c "json" (JsonOutcome.list arr) =
      parse_cookies (netscapeText arr) "txt" jo2 := by
  rw [parse_cookies_json_list _ _ _ (by
    rw [show (pyLower "json" == "json") = true from by decide]
    rfl)]
  rw [parse_cookies_guard_false _ _ _ (by
    rw [show (pyLower "txt" == "json") = false from by decide, hbr]
    rfl)]
  simp only [parseCookiesTail]
  have hnet : netscapeCookies (netscapeText arr) = jsonStepCookies arr := by
    unfold netscapeCookies netscapeText
    rw [pySplitLines_join (lines_clean hrec)]
    exact fold_lines_eq hrec []
  rw [hnet]
  by_cases hemp : (jsonStepCookies arr).isEmpty = true
  · have hskip := jsonStep_nil (List.isEmpty_iff.1 hemp)
    have hlines0 : arr.filterMap json_to_netscape_cookie = [] := by
      rw [List.filterMap_eq_nil_iff]
      intro r hr
      exact toLine_none_of_skip (hskip r hr)
    rw [show netscapeText arr = "" from by unfold netscapeText; rw [hlines0]; rfl]
    rw [show (pyStrip "" == "") = true from by decide]
    simp
  · have hemp2 : (jsonStepCookies arr).isEmpty = false := by
      rwa [Bool.not_eq_true] at hemp
    rw [hemp2, Bool.false_and]
    rfl

/-- C7 witness: the amended round trip applied to a two-record array —
one full clean record and one record without a `name`, skipped
identically on both sides. -/
theorem c7_roundtrip_clean_witness :
    parse_cookies
      "[\x7b\"name\":\"n\",\"value\":\"v\",\"domain\":\".openai.com\",\"path\":\"/\",\"expirationDate\":123,\"secure\":true\x7d,\x7b\"value\":\"z\"\x7d]"
      "json"
      (JsonOutcome.list
        [⟨some "n", some "v", some ".openai.com", some "/", some 123, some true⟩,
         ⟨none, some "z", none, none, none, none⟩]) =
    parse_cookies
      (netscapeText
        [⟨some "n", some "v", some ".openai.com", some "/", some 123, some true⟩,
         ⟨none, some "z", none, none, none, none⟩]) "txt" JsonOutcome.err ∧
    parse_cookies
      (netscapeText
        [⟨some "n", some "v", some ".openai.com", some "/", some 123, some true⟩,
         ⟨none, some "z", none, none, none, none⟩]) "txt" JsonOutcome.err =
      [("n", "v")] :=
  ⟨c7_roundtrip_clean _ _ _ (by decide) (by decide), by decide⟩

end CookieChecker
